import Mathlib

/-!
Verification of the quota-parsing and status-resolution core of the
Ralph Control UI server (`server/index.js`).

The JavaScript code is shallowly embedded: JS values become the inductive
`JsVal` (with `undef` for `undefined` and `null_` for `null`, since the two
behave differently under `Number(...)` coercion), JS numbers become
`Option Rat` (`none` standing for the non-finite values NaN/±Infinity,
which every call site of the embedded code treats alike via
`Number.isFinite` / `Number.isNaN` checks), and the regular expressions of
the source are compiled by hand into character-list scanners with the same
leftmost-match semantics.  Host-environment functions without portable
semantics (`Intl.DateTimeFormat` inside `formatResetLabelFromEpoch`, and
`Date.parse`) are taken as explicit function parameters.
-/

set_option maxRecDepth 4000

namespace RalphUI

/-- JS whitespace characters relevant after ANSI stripping (the source only
feeds single lines and `\n`-split text into `\s`). -/
def isWsChar (c : Char) : Bool :=
  c = ' ' || c = '\t' || c = '\n' || c = '\r' || c = '\x0b' || c = '\x0c'

/-- JS word character class `\w` = `[A-Za-z0-9_]`. -/
def isWordChar (c : Char) : Bool :=
  c.isAlpha || c.isDigit || c = '_'

/-- ASCII lower-casing, as applied by `String.prototype.toLowerCase` on the
ASCII status words this code compares. -/
def lowerChar (c : Char) : Char :=
  if 'A' ≤ c ∧ c ≤ 'Z' then Char.ofNat (c.toNat + 32) else c

def lowerList (l : List Char) : List Char := l.map lowerChar

def jsToLower (s : String) : String := ⟨lowerList s.data⟩

/-- The JS dynamic values this server manipulates.  `undef` models
`undefined` (the result of reading a missing property), `null_` models
`null` (a value that can actually be stored, e.g. read from JSON).
Numbers are `Option Rat` with `none` for the non-finite values. -/
inductive JsVal where
  | undef : JsVal
  | null_ : JsVal
  | bool : Bool → JsVal
  | num : Option Rat → JsVal
  | str : String → JsVal
  | obj : List (String × JsVal) → JsVal

/-- Property read `o[k]`: `undefined` for a missing key or a non-object
receiver (the embedded code only dereferences receivers it has checked to
be non-nullish, via `?.` or explicit truthiness guards). -/
def JsVal.get : JsVal → String → JsVal
  | .obj fields, k => goGet fields k
  | _, _ => .undef
where
  goGet : List (String × JsVal) → String → JsVal
    | [], _ => .undef
    | (k1, v) :: rest, k => if k1 = k then v else goGet rest k

/-- Whether an object value carries the given key. -/
def JsVal.hasField : JsVal → String → Bool
  | .obj fields, k => fields.any (fun p => p.1 = k)
  | _, _ => false

/-- JS truthiness. -/
def JsVal.truthy : JsVal → Bool
  | .undef => false
  | .null_ => false
  | .bool b => b
  | .num none => false
  | .num (some q) => q ≠ 0
  | .str s => s ≠ ""
  | .obj _ => true

/-- View a value as a string, observing nothing else. -/
def JsVal.asStr : JsVal → Option String
  | .str s => some s
  | _ => none

/-- View a value as a JS number, observing nothing else. -/
def JsVal.asNum : JsVal → Option (Option Rat)
  | .num q => some q
  | _ => none

/-- `a || b`. -/
def jsOr (a b : JsVal) : JsVal := if a.truthy then a else b

/-- `a ?? b` (nullish coalescing: `undefined` and `null` fall through). -/
def jsNullish (a b : JsVal) : JsVal :=
  match a with
  | .undef => b
  | .null_ => b
  | v => v

/-- Is a value a JS number (`typeof v === 'number'`; NaN included). -/
def JsVal.isNumber : JsVal → Bool
  | .num _ => true
  | _ => false

/-- Replace the first binding of a key in place, or append a new one
(object keys are unique in JS, so this is the spread/assignment update). -/
def setFields : List (String × JsVal) → String → JsVal → List (String × JsVal)
  | [], k, v => [(k, v)]
  | (k1, v1) :: rest, k, v =>
    if k1 = k then (k, v) :: rest else (k1, v1) :: setFields rest k v

/-- Replace (or append) one key of an object, as done by an object spread
`{...o, k: v}` or a property assignment; spreading a primitive contributes
no fields. -/
def JsVal.setField : JsVal → String → JsVal → JsVal
  | .obj fields, k, v => .obj (setFields fields k v)
  | _, k, v => .obj [(k, v)]

def digitVal (c : Char) : Nat := c.toNat - '0'.toNat

def digitsToNat (l : List Char) : Nat :=
  l.foldl (fun acc c => acc * 10 + digitVal c) 0

/-- Decimal-string parsing backing `Number(string)`: optional sign, then
digits with an optional fraction and an optional exponent, nothing else
(the hex/binary/`Infinity` host formats, all rejected or treated as
non-finite by every call site here, map to `none`).  The whole trimmed
string must be consumed.  An empty trimmed string is `0`, as in JS. -/
def parseDecimal (l : List Char) : Option Rat :=
  let step2 : List Char → Option Rat := fun body =>
    let intPart := body.takeWhile Char.isDigit
    let rest1 := body.dropWhile Char.isDigit
    let (fracPart, rest2) :=
      match rest1 with
      | '.' :: r => (r.takeWhile Char.isDigit, r.dropWhile Char.isDigit)
      | _ => ([], rest1)
    if intPart.isEmpty ∧ fracPart.isEmpty then none
    else
      let mant : Rat :=
        (digitsToNat intPart : Rat) + (digitsToNat fracPart : Rat) / ((10 : Rat) ^ fracPart.length)
      match rest2 with
      | [] => some mant
      | e :: r3 =>
        if e = 'e' ∨ e = 'E' then
          let (esign, r4) : Rat × List Char :=
            match r3 with
            | '+' :: r => (1, r)
            | '-' :: r => (-1, r)
            | r => (1, r)
          let eDigits := r4.takeWhile Char.isDigit
          if eDigits.isEmpty ∨ ¬(r4.dropWhile Char.isDigit).isEmpty then none
          else
            let k := digitsToNat eDigits
            some (if esign = 1 then mant * 10 ^ k else mant / 10 ^ k)
        else none
  match l with
  | '+' :: body => step2 body
  | '-' :: body => (step2 body).map Neg.neg
  | body => step2 body

def trimList (l : List Char) : List Char :=
  ((l.dropWhile isWsChar).reverse.dropWhile isWsChar).reverse

/-- `Number(string)`. -/
def jsStringToNumber (s : String) : Option Rat :=
  let t := trimList s.data
  if t.isEmpty then some 0 else parseDecimal t

/-- `Number(v)` coercion (`none` = not finite).  Objects coerce through
`toString` to NaN for the plain objects occurring here. -/
def jsToNumber : JsVal → Option Rat
  | .undef => none
  | .null_ => some 0
  | .bool b => some (if b then 1 else 0)
  | .num q => q
  | .str s => jsStringToNumber s
  | .obj _ => none

/-- Decimal rendering of the integer-valued numbers that reach JS string
coercion in this code; non-integer rationals never do. -/
def ratToString (q : Rat) : String :=
  if q.den = 1 then toString q.num else toString q.num ++ "/" ++ toString q.den

/-- `String(v)` coercion for the value shapes this code converts. -/
def jsToString : JsVal → String
  | .undef => "undefined"
  | .null_ => "null"
  | .bool b => if b then "true" else "false"
  | .num none => "NaN"
  | .num (some q) => ratToString q
  | .str s => s
  | .obj _ => "[object Object]"

/-- `Math.round` for a finite JS number: half-up, i.e. `⌊q + 1/2⌋`. -/
def jsRound (q : Rat) : Int := Rat.floor (q + 1 / 2)

/-- `Math.max(0, Math.min(100, n))` on an integer. -/
def clampInt0100 (n : Int) : Int := max 0 (min 100 n)

/-- `Math.max(0, Math.min(100, q))` on a rational. -/
def clampRat0100 (q : Rat) : Rat := max 0 (min 100 q)

/-! ## Text normalizer: `stripAnsi` and `normalizeStatusLine` -/

/-- Inside an ANSI escape, after `ESC [`: consume `[0-9;]*` then `m`,
returning the remainder; `none` when the escape regex does not match. -/
def ansiBody : List Char → Option (List Char)
  | [] => none
  | c :: rest =>
    if c = 'm' then some rest
    else if c.isDigit ∨ c = ';' then ansiBody rest
    else none

/-- After an ESC character: the `\[[0-9;]*m` part of the stripped pattern. -/
def ansiTail : List Char → Option (List Char)
  | '[' :: rest => ansiBody rest
  | _ => none

/-- Worker for `stripAnsi` with explicit fuel; every step consumes at least
one character, so fuel equal to the length (as supplied by
`stripAnsiList`) never runs out. -/
def stripAnsiGo : Nat → List Char → List Char
  | 0, _ => []
  | _ + 1, [] => []
  | fuel + 1, c :: rest =>
    if c = '\x1b' then
      match ansiTail rest with
      | some r => stripAnsiGo fuel r
      | none => c :: stripAnsiGo fuel rest
    else c :: stripAnsiGo fuel rest

/-- `stripAnsi`: remove every `ESC\[[0-9;]*m` sequence, left to right
(`String(text).replace(/\u001b\[[0-9;]*m/g, '')`). -/
def stripAnsiList (l : List Char) : List Char := stripAnsiGo l.length l

def stripAnsi (s : String) : String := ⟨stripAnsiList s.data⟩

/-- Box-drawing glyph replacement `[│╭╮╰╯] → ' '`. -/
def boxToSpace (c : Char) : Char :=
  if c = '│' ∨ c = '╭' ∨ c = '╮' ∨ c = '╰' ∨ c = '╯' then ' ' else c

/-- `replace(/\s+/g, ' ')`: collapse each whitespace run to one space. -/
def collapseWs : List Char → List Char
  | [] => []
  | [c] => [if isWsChar c then ' ' else c]
  | c1 :: c2 :: rest =>
    if isWsChar c1 ∧ isWsChar c2 then collapseWs (c2 :: rest)
    else (if isWsChar c1 then ' ' else c1) :: collapseWs (c2 :: rest)

def normalizeLineList (l : List Char) : List Char :=
  trimList (collapseWs ((stripAnsiList l).map boxToSpace))

/-- `normalizeStatusLine`: strip ANSI, blank out box glyphs, collapse
whitespace, trim. -/
def normalizeStatusLine (s : String) : String := ⟨normalizeLineList s.data⟩

/-- `text.split('\n')` (keeps empty segments, as in JS). -/
def splitOnNl : List Char → List (List Char)
  | [] => [[]]
  | c :: r =>
    if c = '\n' then [] :: splitOnNl r
    else
      match splitOnNl r with
      | h :: t => (c :: h) :: t
      | [] => [[c]]

/-! ## Hand-compiled regular-expression scanners

Each JS regex of `parseLimitLine` / `parseCodexStatusSnapshotText` is
translated to a scanner with the same leftmost-match, greedy-with-
backtracking semantics, specialized to the concrete pattern. -/

/-- Case-insensitive prefix test; the needle is given lowercase. -/
def startsWithCI : List Char → List Char → Bool
  | [], _ => true
  | _ :: _, [] => false
  | n :: ns, c :: cs => lowerChar c = n && startsWithCI ns cs

/-- Case-insensitive substring test (`/lit/i.test(s)`), needle lowercase. -/
def containsCI (needle : List Char) : List Char → Bool
  | [] => startsWithCI needle []
  | s@(_ :: rest) => startsWithCI needle s || containsCI needle rest

/-- One anchored attempt of `(\d{1,3})\s*%\s*<lit>`: a maximal digit run of
length 1–3 (a longer run cannot match here, the regex then retries at the
next position), optional whitespace, `%`, optional whitespace, literal. -/
def percentAt (lit : List Char) (s : List Char) : Option Nat :=
  let ds := s.takeWhile Char.isDigit
  if ds.isEmpty ∨ ds.length > 3 then none
  else
    let r2 := (s.dropWhile Char.isDigit).dropWhile isWsChar
    match r2 with
    | '%' :: r3 =>
      if startsWithCI lit (r3.dropWhile isWsChar) then some (digitsToNat ds) else none
    | _ => none

/-- Leftmost match of `(\d{1,3})\s*%\s*<lit>`, capturing the digits. -/
def findPercent (lit : List Char) : List Char → Option Nat
  | [] => none
  | s@(_ :: rest) =>
    match percentAt lit s with
    | some n => some n
    | none => findPercent lit rest

/-- One anchored attempt of `(\d{1,3})\s*%\s*(.+)$`, returning everything
after the `%` sign (the `\s*`/`(.+)` split never survives the later
`.trim()`, so the raw remainder suffices); the remainder must be
non-empty for `(.+)` to match. -/
def percentRestAt (s : List Char) : Option (List Char) :=
  let ds := s.takeWhile Char.isDigit
  if ds.isEmpty ∨ ds.length > 3 then none
  else
    let r2 := (s.dropWhile Char.isDigit).dropWhile isWsChar
    match r2 with
    | '%' :: r3 => if r3.isEmpty then none else some r3
    | _ => none

/-- Leftmost match of `(\d{1,3})\s*%\s*(.+)$`. -/
def findPercentRest : List Char → Option (List Char)
  | [] => none
  | s@(_ :: rest) =>
    match percentRestAt s with
    | some r => some r
    | none => findPercentRest rest

/-- One attempt of `\(resets?\s+([^)]+)\)` positioned just after a `(`:
`reset`, an optional `s`, then at least one whitespace and a non-empty
non-`)` body before the closing `)`.  Returns the body (whose maximal
whitespace prefix the regex may or may not capture — irrelevant after the
caller's `.trim()`). -/
def parenResetAt (s : List Char) : Option (List Char) :=
  if startsWithCI ['r', 'e', 's', 'e', 't'] s then
    let r1 := s.drop 5
    let r2 := match r1 with
      | c :: cr => if lowerChar c = 's' then cr else r1
      | [] => r1
    let body := r2.takeWhile (fun c => c ≠ ')')
    let rest := r2.dropWhile (fun c => c ≠ ')')
    match rest, body with
    | ')' :: _, b0 :: _ =>
      if isWsChar b0 ∧ body.length ≥ 2 then some body else none
    | _, _ => none
  else none

/-- Leftmost match of `\(resets?\s+([^)]+)\)`, returning the capture. -/
def findParenReset : List Char → Option (List Char)
  | [] => none
  | c :: rest =>
    if c = '(' then
      match parenResetAt rest with
      | some t => some t
      | none => findParenReset rest
    else findParenReset rest

/-- `/no .*left/i`: `no ` followed (same line) by `left`. -/
def noLeftTest : List Char → Bool
  | [] => false
  | s@(_ :: rest) =>
    (startsWithCI ['n', 'o', ' '] s && containsCI ['l', 'e', 'f', 't'] (s.drop 3)) ||
      noLeftTest rest

/-- One attempt of `\b0\s*%\s*left\b` (`prevIsWord` says whether the
character before the current position is a word character). -/
def zeroLeftAt (prevIsWord : Bool) (s : List Char) : Bool :=
  match s with
  | '0' :: r1 =>
    !prevIsWord &&
      (match r1.dropWhile isWsChar with
       | '%' :: r3 =>
         let r4 := r3.dropWhile isWsChar
         startsWithCI ['l', 'e', 'f', 't'] r4 &&
           (match r4.drop 4 with
            | [] => true
            | c :: _ => !isWordChar c)
       | _ => false)
  | _ => false

def zeroLeftGo (prevIsWord : Bool) : List Char → Bool
  | [] => false
  | s@(c :: rest) => zeroLeftAt prevIsWord s || zeroLeftGo (isWordChar c) rest

/-- `/\b0\s*%\s*left\b/i.test(s)`. -/
def zeroLeftTest (s : List Char) : Bool := zeroLeftGo false s

/-- `/(limit reached|rate limit reached|exceeded|blocked|no .*left|\b0\s*%\s*left\b)/i`
("rate limit reached" is subsumed by "limit reached"). -/
def limitPhraseTest (s : List Char) : Bool :=
  containsCI "limit reached".data s || containsCI "exceeded".data s ||
    containsCI "blocked".data s || noLeftTest s || zeroLeftTest s

/-! ## `formatResetLabelFromEpoch`, `getQuotaStatusFromRemaining`,
`parseLimitLine` -/

/-- A number-or-null JS value. -/
def optNum : Option Rat → JsVal
  | some q => .num (some q)
  | none => .null_

/-- `formatResetLabelFromEpoch(resetEpochSeconds)`, the value of a
*completed* evaluation: `null` unless `Number(·)` is finite and positive,
else the locale-formatted label.  The `Intl.DateTimeFormat` rendering is
host-defined and is abstracted as the parameter `fmt`.  A finite positive
epoch beyond the JS `Date` range makes the real function raise instead of
returning — that raise condition is transcribed separately as
`formatResetLabelThrows`. -/
def formatResetLabelFromEpoch (fmt : Rat → String) (v : JsVal) : JsVal :=
  match jsToNumber v with
  | none => .null_
  | some q => if q ≤ 0 then .null_ else .str (fmt q)

/-- The largest JS time value, 8.64e15 ms (ECMA-262 `TimeClip`), as an
epoch in seconds: 8.64e12. -/
def JS_MAX_EPOCH_SECONDS : Rat := 8640000000000

/-- Whether a call `formatResetLabelFromEpoch(v)` raises: the guard passes
(finite, positive epoch) but `new Date(epoch * 1000)` has time value
beyond 8.64e15 ms, so its time value is NaN and
`Intl.DateTimeFormat.prototype.format` raises `RangeError: Invalid time
value` (ECMA-262 `TimeClip`, ECMA-402 `FormatDateTime` — standardized, not
host-specific). -/
def formatResetLabelThrows (v : JsVal) : Bool :=
  match jsToNumber v with
  | none => false
  | some q => if q ≤ 0 then false else decide (JS_MAX_EPOCH_SECONDS < q)

/-- `getQuotaStatusFromRemaining(remainingPercent)`. -/
def getQuotaStatusFromRemaining : JsVal → String
  | .num (some q) => if q ≤ 0 then "limited" else if q ≤ 10 then "warning" else "ok"
  | _ => "unknown"

/-- The `(remainingPercent, usagePercent)` pair of `parseLimitLine`, from
the three patterns tried in order: `% left`, `% used`, bare `%`. -/
def limitLinePercents (normalized : List Char) : Option Rat × Option Rat :=
  match findPercent "left".data normalized with
  | some n => let r := clampRat0100 (n : Rat); (some r, some (100 - r))
  | none =>
    match findPercent "used".data normalized with
    | some n => let u := clampRat0100 (n : Rat); (some (100 - u), some u)
    | none =>
      match findPercent [] normalized with
      | some n => let r := clampRat0100 (n : Rat); (some r, some (100 - r))
      | none => (none, none)

/-- `isLimitedByText || remainingPercent === 0` of `parseLimitLine`. -/
def limitLineIsLimited (normalized : List Char) : Bool :=
  limitPhraseTest normalized || (limitLinePercents normalized).1 == some 0

/-- The reset label of `parseLimitLine`: parenthesised `(resets ...)` text
first, else non-`left`/`used` trailing text after the percent; a purely
numeric positive label is re-rendered through `formatResetLabelFromEpoch`. -/
def limitLineResetLabel (fmt : Rat → String) (normalized : List Char) : JsVal :=
  let resetLabel0 : Option (List Char) :=
    match findParenReset normalized with
    | some t => some (trimList t)
    | none =>
      match findPercentRest normalized with
      | some r =>
        let trailing := trimList r
        if !trailing.isEmpty &&
            !(containsCI "left".data trailing || containsCI "used".data trailing) then
          some trailing
        else none
      | none => none
  match resetLabel0 with
  | none => .null_
  | some t =>
    match jsStringToNumber ⟨t⟩ with
    | some q => if 0 < q then .str (fmt q) else .str ⟨t⟩
    | none => .str ⟨t⟩

/-- `parseLimitLine(line)`: `null` for a line that normalizes to empty,
else a window record extracted by the `left`/`used`/bare-percent patterns
and the reset-label rules. -/
def parseLimitLine (fmt : Rat → String) (line : String) : JsVal :=
  let normalized := normalizeLineList line.data
  if normalized.isEmpty then .null_
  else
    .obj
      [("status", .str (if limitLineIsLimited normalized then "limited" else "ok")),
       ("usagePercent", optNum (limitLinePercents normalized).2),
       ("remainingPercent", optNum (limitLinePercents normalized).1),
       ("resetLabel", limitLineResetLabel fmt normalized),
       ("line", .str ⟨normalized⟩)]

/-! ## `parseCodexStatusSnapshotText` -/

/-- `^([a-zA-Z0-9_]+)=(.*)$` on one normalized line: the maximal word-run
key, non-empty, immediately followed by `=`; the value is the rest,
trimmed (`String(kv[2] || '').trim()`). -/
def kvLineMatch (l : List Char) : Option (String × String) :=
  let key := l.takeWhile isWordChar
  match l.dropWhile isWordChar with
  | '=' :: v => if key.isEmpty then none else some (⟨key⟩, ⟨trimList v⟩)
  | _ => none

/-- `kvMatches[k] = v` (later lines overwrite earlier ones). -/
def kvInsert (m : List (String × String)) (k v : String) : List (String × String) :=
  if m.any (fun p => p.1 = k) then m.map (fun p => if p.1 = k then (k, v) else p)
  else m ++ [(k, v)]

/-- The `kvMatches` dictionary of the structured branch. -/
def collectKv (text : List Char) : List (String × String) :=
  ((splitOnNl text).map normalizeLineList).foldl
    (fun m l =>
      match kvLineMatch l with
      | some (k, v) => kvInsert m k v
      | none => m)
    []

def kvLookup (m : List (String × String)) (k : String) : Option String :=
  (m.find? (fun p => p.1 = k)).map Prod.snd

/-- `parseNum(kvMatches[k])`: `Number(value)` when the key is present and
finite, else `null` (`Number(undefined)` is NaN). -/
def parseNumKV : Option String → Option Rat
  | none => none
  | some s => jsStringToNumber s

/-- The structured branch's `normalizeStatus(remaining)`. -/
def kvNormalizeStatus : Option Rat → String
  | none => "unknown"
  | some q => if q ≤ 0 then "limited" else if q ≤ 10 then "warning" else "ok"

/-- `kvMatches[k] || null` (an empty string is falsy). -/
def kvRaw (m : List (String × String)) (k : String) : Option String :=
  match kvLookup m k with
  | some s => if s = "" then none else some s
  | none => none

/-- `raw ? formatResetLabelFromEpoch(raw) || raw : null`. -/
def kvResetLabel (fmt : Rat → String) (raw : Option String) : JsVal :=
  match raw with
  | none => .null_
  | some s => jsOr (formatResetLabelFromEpoch fmt (.str s)) (.str s)

/-- `kvMatches[k] || dflt`. -/
def kvOrDefault (m : List (String × String)) (k dflt : String) : String :=
  match kvLookup m k with
  | some s => if s = "" then dflt else s
  | none => dflt

/-- One window of the structured branch. -/
def kvWindow (fmt : Rat → String) (m : List (String × String))
    (remainingKey usedKey resetKey humanKey : String) : JsVal :=
  let remaining := parseNumKV (kvLookup m remainingKey)
  .obj
    [("status", .str (kvNormalizeStatus remaining)),
     ("usagePercent", optNum (parseNumKV (kvLookup m usedKey))),
     ("remainingPercent", optNum remaining),
     ("resetLabel", kvResetLabel fmt (kvRaw m resetKey)),
     ("line", .str (kvOrDefault m humanKey ""))]

/-- `/5[\s-]?hour/i`-style pattern: a first character, an optional single
whitespace-or-hyphen, then a literal tail. -/
def gapPatAt (first : Char) (tail : List Char) (s : List Char) : Bool :=
  match s with
  | c :: r =>
    c = first &&
      (startsWithCI tail r ||
        (match r with
         | g :: r2 => (isWsChar g || g = '-') && startsWithCI tail r2
         | [] => false))
  | [] => false

def gapPatTest (first : Char) (tail : List Char) : List Char → Bool
  | [] => false
  | s@(_ :: rest) => gapPatAt first tail s || gapPatTest first tail rest

/-- `\b<word>\b` for a word made of word characters. -/
def wordBoundaryAt (w : List Char) (prevIsWord : Bool) (s : List Char) : Bool :=
  !prevIsWord && startsWithCI w s &&
    (match s.drop w.length with
     | [] => true
     | c :: _ => !isWordChar c)

def wordBoundaryGo (w : List Char) (prevIsWord : Bool) : List Char → Bool
  | [] => false
  | s@(c :: rest) => wordBoundaryAt w prevIsWord s || wordBoundaryGo w (isWordChar c) rest

def wordBoundaryTest (w : List Char) (s : List Char) : Bool := wordBoundaryGo w false s

/-- Free-text five-hour line patterns `[/5[\s-]?hour/i, /\b5h\b/i]`. -/
def fiveHourLinePats (l : List Char) : Bool :=
  gapPatTest '5' "hour".data l || wordBoundaryTest "5h".data l

/-- Free-text weekly line patterns `[/weekly/i, /\bweek\b/i, /7[\s-]?day/i]`. -/
def weeklyLinePats (l : List Char) : Bool :=
  containsCI "weekly".data l || wordBoundaryTest "week".data l || gapPatTest '7' "day".data l

/-- `findLine(patterns)`: first non-empty normalized line matching, else `''`. -/
def findLine (pat : List Char → Bool) (lines : List (List Char)) : List Char :=
  ((lines.find? pat).getD [])

/-- The free-text fallback's per-window default
`{ status: 'unknown', usagePercent: null, remainingPercent: null, line: '' }`. -/
def freeTextDefaultWindow : JsVal :=
  .obj
    [("status", .str "unknown"), ("usagePercent", .null_),
     ("remainingPercent", .null_), ("line", .str "")]

/-- The structured (`key=value`) branch of the snapshot parser. -/
def snapshotStructuredResult (fmt : Rat → String) (now : String) (textL : List Char)
    (kv : List (String × String)) : JsVal :=
  .obj
    [("fiveHour", kvWindow fmt kv "5h_remaining_percent" "5h_used_percent" "5h_resets_at" "5h_human"),
     ("weekly", kvWindow fmt kv "weekly_remaining_percent" "weekly_used_percent" "weekly_resets_at" "weekly_human"),
     ("updatedAt", .str now),
     ("source", .str (kvOrDefault kv "source" "snapshot_kv")),
     ("raw", .str ⟨stripAnsiList textL⟩)]

/-- The free-text fallback branch of the snapshot parser. -/
def snapshotFreeTextResult (fmt : Rat → String) (now : String) (textL : List Char) : JsVal :=
  let lines := (((splitOnNl textL).map normalizeLineList).filter (fun l => !l.isEmpty))
  let fiveHourLine := findLine fiveHourLinePats lines
  let weeklyLine := findLine weeklyLinePats lines
  .obj
    [("fiveHour", jsOr (parseLimitLine fmt ⟨fiveHourLine⟩) freeTextDefaultWindow),
     ("weekly", jsOr (parseLimitLine fmt ⟨weeklyLine⟩) freeTextDefaultWindow),
     ("updatedAt", .str now),
     ("raw", .str ⟨stripAnsiList textL⟩)]

/-- `parseCodexStatusSnapshotText(rawText)`: `null` for blank input, else
the structured branch when any normalized line matches `key=value`, else
the free-text fallback. -/
def parseCodexStatusSnapshotText (fmt : Rat → String) (now : String) (rawText : String) : JsVal :=
  let textL := trimList rawText.data
  if textL.isEmpty then .null_
  else
    let kv := collectKv textL
    if kv.isEmpty then snapshotFreeTextResult fmt now textL
    else snapshotStructuredResult fmt now textL kv

/-! ## `buildEffectiveQuota` (the quota resolver) -/

/-- One window of `normalizeStatusQuota`'s result. -/
def normalizeStatusWindow (fmt : Rat → String) (w : JsVal) : JsVal :=
  .obj
    [("status", jsOr (w.get "status") (.str "unknown")),
     ("remainingPercent", jsNullish (w.get "remainingPercent") (jsNullish (w.get "remaining_percent") .null_)),
     ("usagePercent", jsNullish (w.get "usagePercent") (jsNullish (w.get "used_percent") .null_)),
     ("resetLabel",
       jsOr (w.get "resetLabel")
         (jsOr (w.get "reset_label_local") (formatResetLabelFromEpoch fmt (w.get "resets_at_epoch")))),
     ("line", .str "")]

/-- `normalizeStatusQuota(quotaObj, source = 'status_json')`: `null` unless
the payload is an object carrying a number under one of the four
remaining-percent spellings. -/
def normalizeStatusQuota (fmt : Rat → String) (now : String) (quotaObj : JsVal)
    (source : String := "status_json") : Option JsVal :=
  match quotaObj with
  | .obj _ =>
    let five := jsOr (quotaObj.get "five_hour") (jsOr (quotaObj.get "fiveHour") (.obj []))
    let weekly := jsOr (quotaObj.get "weekly") (.obj [])
    let hasNumbers :=
      (five.get "remaining_percent").isNumber || (five.get "remainingPercent").isNumber ||
        (weekly.get "remaining_percent").isNumber || (weekly.get "remainingPercent").isNumber
    if hasNumbers then
      some (.obj
        [("fiveHour", normalizeStatusWindow fmt five),
         ("weekly", normalizeStatusWindow fmt weekly),
         ("updatedAt", .str now),
         ("source", jsOr (quotaObj.get "source") (.str source))])
    else none
  | _ => none

/-- One window of the `codex_sessions` branch of the resolver. -/
def sessionWindow (w : JsVal) : JsVal :=
  .obj
    [("status", .str (getQuotaStatusFromRemaining (w.get "remainingPercent"))),
     ("remainingPercent", jsNullish (w.get "remainingPercent") .null_),
     ("usagePercent", jsNullish (w.get "usagePercent") .null_),
     ("resetLabel", jsNullish (w.get "resetLabel") .null_),
     ("line", .str "")]

/-- `snapshotHasNumbers` inside `buildEffectiveQuota`. -/
def snapshotHasNumbers (snapshot : JsVal) : Bool :=
  snapshot.truthy &&
    (((snapshot.get "fiveHour").get "remainingPercent").isNumber ||
      ((snapshot.get "weekly").get "remainingPercent").isNumber)

/-- `buildEffectiveQuota(codexStatusSnapshot, codexQuota, sessionRateLimits,
statusEffectiveQuota)`. -/
def buildEffectiveQuota (fmt : Rat → String) (now : String)
    (codexStatusSnapshot codexQuota sessionRateLimits statusEffectiveQuota : JsVal) : JsVal :=
  match normalizeStatusQuota fmt now statusEffectiveQuota with
  | some normalized => normalized
  | none =>
    if snapshotHasNumbers codexStatusSnapshot && !(codexStatusSnapshot.get "isStale").truthy then
      codexStatusSnapshot.setField "source" (jsOr (codexStatusSnapshot.get "source") (.str "snapshot"))
    else if sessionRateLimits.truthy then
      .obj
        [("fiveHour", sessionWindow (sessionRateLimits.get "fiveHour")),
         ("weekly", sessionWindow (sessionRateLimits.get "weekly")),
         ("updatedAt", .str now),
         ("source", .str "codex_sessions")]
    else if snapshotHasNumbers codexStatusSnapshot then
      codexStatusSnapshot.setField "source" (jsOr (codexStatusSnapshot.get "source") (.str "snapshot_stale"))
    else if codexQuota.truthy then
      .obj
        [("fiveHour", jsOr (codexQuota.get "fiveHour") (.obj [("status", .str "unknown")])),
         ("weekly", jsOr (codexQuota.get "weekly") (.obj [("status", .str "unknown")])),
         ("updatedAt", jsOr (codexQuota.get "updatedAt") (.str now)),
         ("source", .str "heuristics_logs")]
    else
      .obj
        [("fiveHour", .obj [("status", .str "unknown")]),
         ("weekly", .obj [("status", .str "unknown")]),
         ("updatedAt", .str now),
         ("source", .str "none")]

/-- Whether building one `normalizeStatusQuota` window raises: the chain
`w.resetLabel || w.reset_label_local || formatResetLabelFromEpoch(w.resets_at_epoch)`
short-circuits, so the formatter is called — and can raise — only when the
first two operands are falsy. -/
def windowResetThrows (w : JsVal) : Bool :=
  !(w.get "resetLabel").truthy && !(w.get "reset_label_local").truthy &&
    formatResetLabelThrows (w.get "resets_at_epoch")

/-- Whether evaluating `normalizeStatusQuota(quotaObj, ...)` raises: the
windows (and with them the reset-label chains) are only constructed after
the `hasNumbers` check passes, the five-hour window first. -/
def normalizeStatusQuotaThrows (quotaObj : JsVal) : Bool :=
  match quotaObj with
  | .obj _ =>
    let five := jsOr (quotaObj.get "five_hour") (jsOr (quotaObj.get "fiveHour") (.obj []))
    let weekly := jsOr (quotaObj.get "weekly") (.obj [])
    ((five.get "remaining_percent").isNumber || (five.get "remainingPercent").isNumber ||
        (weekly.get "remaining_percent").isNumber || (weekly.get "remainingPercent").isNumber) &&
      (windowResetThrows five || windowResetThrows weekly)
  | _ => false

/-- Whether evaluating `buildEffectiveQuota(...)` raises.  The only
formatter call sites inside the source function are the two resetLabel
chains of `normalizeStatusQuota` (`src/server/index.js` lines 405 and
412), which is invoked once, on the canonical payload, before anything
else; the snapshot, session and log-heuristic branches copy already-built
values and cannot raise. -/
def buildEffectiveQuotaThrows (_snap _cq _sess sq : JsVal) : Bool :=
  normalizeStatusQuotaThrows sq

/-! ## `readLatestRateLimitsFromCodexSessions`

The filesystem side (`listRecentCodexSessionFiles`, `tailFile`) is external
I/O: the reader is modelled over its result, a newest-first list of
session files, each given as the per-line `JSON.parse` outcomes (`none` =
malformed line) of the non-empty lines of its 600-line tail, in file
order. -/

/-- JS strict equality `v === '<s>'`. -/
def jsStrictEqStr (v : JsVal) (s : String) : Bool :=
  match v with
  | .str t => t = s
  | _ => false

/-- The record built from the first usable `token_count` event. -/
def rateLimitsRecord (fmt : Rat → String) (name : String) (j : JsVal) : JsVal :=
  let rl := (j.get "payload").get "rate_limits"
  let primary := rl.get "primary"
  let secondary := rl.get "secondary"
  let primaryUsed := jsToNumber (primary.get "used_percent")
  let secondaryUsed := jsToNumber (secondary.get "used_percent")
  let mkWindow : JsVal → Option Rat → JsVal := fun w used =>
    .obj
      [("remainingPercent",
         match used with
         | some u => .num (some ((clampInt0100 (jsRound (100 - u)) : Int) : Rat))
         | none => .null_),
       ("usagePercent",
         match used with
         | some u => .num (some ((jsRound u : Int) : Rat))
         | none => .null_),
       ("resetLabel", formatResetLabelFromEpoch fmt (w.get "resets_at"))]
  .obj
    [("sourceFile", .str name),
     ("eventTimestamp", jsOr (j.get "timestamp") .null_),
     ("fiveHour", mkWindow primary primaryUsed),
     ("weekly", mkWindow secondary secondaryUsed)]

/-- The reverse-chronological scan of one file's parsed tail lines. -/
def scanSessionLines (fmt : Rat → String) (name : String) : List (Option JsVal) → Option JsVal
  | [] => none
  | none :: rest => scanSessionLines fmt name rest
  | some j :: rest =>
    if !jsStrictEqStr (j.get "type") "event_msg" ||
        !jsStrictEqStr ((j.get "payload").get "type") "token_count" ||
        !((j.get "payload").get "rate_limits").truthy then
      scanSessionLines fmt name rest
    else
      let primary := ((j.get "payload").get "rate_limits").get "primary"
      let secondary := ((j.get "payload").get "rate_limits").get "secondary"
      if !primary.truthy && !secondary.truthy then scanSessionLines fmt name rest
      else some (rateLimitsRecord fmt name j)

/-- `readLatestRateLimitsFromCodexSessions()` over the modelled candidate
files: first usable event wins, newest file first and newest line first
within a file; `null` when nothing usable exists.  This is the value of a
completed evaluation; whether the evaluation instead raises is
`readLatestRateLimitsThrows`. -/
def readLatestRateLimitsFromCodexSessions (fmt : Rat → String) :
    List (String × List (Option JsVal)) → JsVal
  | [] => .null_
  | (name, lines) :: rest =>
    match scanSessionLines fmt name lines.reverse with
    | some r => r
    | none => readLatestRateLimitsFromCodexSessions fmt rest

/-- Whether building the reader's record for event `j` raises: the record
literal calls `formatResetLabelFromEpoch(primary?.resets_at)` and then
`formatResetLabelFromEpoch(secondary?.resets_at)` unconditionally, outside
any try/catch (the only `try` in the source function wraps `JSON.parse`),
so the construction raises when either call does. -/
def rateLimitsRecordThrows (j : JsVal) : Bool :=
  formatResetLabelThrows
      ((((j.get "payload").get "rate_limits").get "primary").get "resets_at") ||
    formatResetLabelThrows
      ((((j.get "payload").get "rate_limits").get "secondary").get "resets_at")

/-- The scan of `scanSessionLines`, mapped to whether the record built for
the found event raises (`none` = no usable event in this file). -/
def scanSessionLinesThrows : List (Option JsVal) → Option Bool
  | [] => none
  | none :: rest => scanSessionLinesThrows rest
  | some j :: rest =>
    if !jsStrictEqStr (j.get "type") "event_msg" ||
        !jsStrictEqStr ((j.get "payload").get "type") "token_count" ||
        !((j.get "payload").get "rate_limits").truthy then
      scanSessionLinesThrows rest
    else
      let primary := ((j.get "payload").get "rate_limits").get "primary"
      let secondary := ((j.get "payload").get "rate_limits").get "secondary"
      if !primary.truthy && !secondary.truthy then scanSessionLinesThrows rest
      else some (rateLimitsRecordThrows j)

/-- Whether evaluating `readLatestRateLimitsFromCodexSessions()` on the
modelled files raises (a `RangeError` out of the reset-label formatter)
instead of returning. -/
def readLatestRateLimitsThrows : List (String × List (Option JsVal)) → Bool
  | [] => false
  | (_, lines) :: rest =>
    match scanSessionLinesThrows lines.reverse with
    | some b => b
    | none => readLatestRateLimitsThrows rest

/-! ## `/api/project-status` handler core: status age, snapshot staleness,
orphan overlay, runtime health -/

def QUOTA_SNAPSHOT_STALE_SECONDS : Nat := 15 * 60

def RUNTIME_ORPHAN_THRESHOLD_SECONDS : Nat := 45

/-- `getStatusAgeSeconds(status)`.  `Date.parse` is host-defined and is
abstracted as `dateParse` (milliseconds since the epoch, `none` = NaN);
`nowMs` is `Date.now()`. -/
def getStatusAgeSeconds (dateParse : String → Option Int) (nowMs : Int) (status : JsVal) : JsVal :=
  let ts := status.get "timestamp"
  if !ts.truthy then .null_
  else
    match dateParse (jsToString ts) with
    | none => .null_
    | some parsed => .num (some ((max 0 ((nowMs - parsed).fdiv 1000) : Int) : Rat))

/-- The handler's snapshot-staleness attachment (`capturedAt`,
`ageSeconds`, `isStale = ageSeconds > QUOTA_SNAPSHOT_STALE_SECONDS`),
applied when a parsed snapshot and its file mtime both exist. -/
def attachSnapshotMeta (snapshot : JsVal) (capturedAt : String) (ageSeconds : Nat) : JsVal :=
  ((snapshot.setField "capturedAt" (.str capturedAt)).setField
      "ageSeconds" (.num (some (ageSeconds : Rat)))).setField
    "isStale" (.bool (ageSeconds > QUOTA_SNAPSHOT_STALE_SECONDS))

def activeStatuses : List String := ["running", "paused", "retrying", "executing"]

def terminalStatuses : List String :=
  ["error", "failed", "halted", "stopped", "completed", "stopped_unexpected"]

/-- `status == null` (loose: `null` or `undefined`). -/
def jsLooseNull : JsVal → Bool
  | .null_ => true
  | .undef => true
  | _ => false

/-- `String(status?.status || '').toLowerCase()`. -/
def statusNameOf (status : JsVal) : String :=
  jsToLower (jsToString (jsOr (status.get "status") (.str "")))

/-- The handler's `appearsOrphaned` condition. -/
def appearsOrphaned (status : JsVal) (processCount : Nat) (statusAgeSeconds : JsVal) : Bool :=
  !jsLooseNull status && activeStatuses.contains (statusNameOf status) &&
    decide (processCount = 0) &&
    (match statusAgeSeconds with
     | .num (some q) => decide ((RUNTIME_ORPHAN_THRESHOLD_SECONDS : Rat) < q)
     | _ => false)

/-- The synthetic terminal overlay
`{...status, status, last_action, exit_reason, derived}`. -/
def overlayOrphan (status : JsVal) : JsVal :=
  (((status.setField "status" (.str "stopped_unexpected")).setField
        "last_action" (.str "process_missing")).setField
      "exit_reason" (.str "process_missing")).setField
    "derived" (.bool true)

/-- The handler's orphan-overlay plus runtime-health block: returns the
(possibly overlaid) status and the `runtime` record. -/
def projectStatusRuntime (status0 : JsVal) (processCount : Nat) (statusAgeSeconds : JsVal) :
    JsVal × JsVal :=
  let status :=
    if appearsOrphaned status0 processCount statusAgeSeconds then overlayOrphan status0
    else status0
  let isTerminalStatus := terminalStatuses.contains (statusNameOf status)
  let isFresh : Bool :=
    match statusAgeSeconds with
    | .num (some q) => decide (q ≤ 30)
    | _ => false
  let runtime : JsVal :=
    .obj
      [("processesCount", .num (some (processCount : Rat))),
       ("statusAgeSeconds", statusAgeSeconds),
       ("statusFresh", .bool isFresh),
       ("runtimeHealthy",
         .bool (decide (0 < processCount) && !jsLooseNull status && isFresh && !isTerminalStatus))]
  (status, runtime)

/-! ## Specification-side definitions

These definitions transcribe what the specification *says*, for comparison
with the code-derived definitions above. -/

/-- The claim-side reading of "the canonical payload is present and carries
a numeric remaining-percent on at least one window", including the
camelCase/snake_case spellings the payload may use. -/
def canonicalPayloadNumeric (q : JsVal) : Bool :=
  match q with
  | .obj _ =>
    let five := jsOr (q.get "five_hour") (jsOr (q.get "fiveHour") (.obj []))
    let weekly := jsOr (q.get "weekly") (.obj [])
    (five.get "remaining_percent").isNumber || (five.get "remainingPercent").isNumber ||
      (weekly.get "remaining_percent").isNumber || (weekly.get "remainingPercent").isNumber
  | _ => false

/-- The five-hour window object of a canonical payload. -/
def payloadFive (q : JsVal) : JsVal :=
  jsOr (q.get "five_hour") (jsOr (q.get "fiveHour") (.obj []))

/-- The weekly window object of a canonical payload. -/
def payloadWeekly (q : JsVal) : JsVal :=
  jsOr (q.get "weekly") (.obj [])

/-- The remaining-percent a canonical payload window declares
(camelCase over snake_case, else null). -/
def payloadRemaining (w : JsVal) : JsVal :=
  jsNullish (w.get "remainingPercent") (jsNullish (w.get "remaining_percent") .null_)

/-- The snapshot keys the specification enumerates as recognized by the
structured branch. -/
def recognizedSnapshotKeys : List String :=
  ["5h_remaining_percent", "5h_used_percent", "5h_resets_at",
   "weekly_remaining_percent", "weekly_used_percent", "weekly_resets_at",
   "5h_human", "weekly_human", "source"]

/-- The snapshot parser as the specification describes it: identical to
`parseCodexStatusSnapshotText` except that the structured branch is chosen
exactly when at least one *recognized* key appears among the parsed
`key=value` lines. -/
def snapshotParserPerSpec (fmt : Rat → String) (now : String) (rawText : String) : JsVal :=
  let textL := trimList rawText.data
  if textL.isEmpty then .null_
  else
    let kv := collectKv textL
    if recognizedSnapshotKeys.any (fun k => (kvLookup kv k).isSome) then
      snapshotStructuredResult fmt now textL kv
    else snapshotFreeTextResult fmt now textL

/-- Does one normalized line match the `key=value` shape. -/
def isKvLine (l : List Char) : Bool := (kvLineMatch l).isSome

/-- Does any normalized line of the (trimmed) snapshot text match
`key=value`. -/
def hasKvLine (textL : List Char) : Bool :=
  ((splitOnNl textL).map normalizeLineList).any isKvLine

/-- The claim-side shape of a usable session-journal event: a
`token_count` event message carrying a `rate_limits` object with a
`primary` and/or `secondary` window. -/
def usableTokenCountEvent (j : JsVal) : Bool :=
  jsStrictEqStr (j.get "type") "event_msg" &&
    jsStrictEqStr ((j.get "payload").get "type") "token_count" &&
    ((j.get "payload").get "rate_limits").truthy &&
    ((((j.get "payload").get "rate_limits").get "primary").truthy ||
      (((j.get "payload").get "rate_limits").get "secondary").truthy)

/-- The newest usable event: files are scanned newest-first and, inside a
file, lines newest-first; unparseable lines are dropped. -/
def firstUsableEvent : List (String × List (Option JsVal)) → Option (String × JsVal)
  | [] => none
  | (name, lines) :: rest =>
    match (lines.reverse.filterMap id).find? usableTokenCountEvent with
    | some j => some (name, j)
    | none => firstUsableEvent rest

/-- The claim-side conversion of a usable event, with
`remainingPercent = round(clamp(100 - used_percent, 0, 100))` written in
the specification's operation order. -/
def specRateLimitsRecord (fmt : Rat → String) (name : String) (j : JsVal) : JsVal :=
  let rl := (j.get "payload").get "rate_limits"
  let mkWindow : JsVal → JsVal := fun w =>
    .obj
      [("remainingPercent",
         match jsToNumber (w.get "used_percent") with
         | some u => .num (some ((jsRound (clampRat0100 (100 - u)) : Int) : Rat))
         | none => .null_),
       ("usagePercent",
         match jsToNumber (w.get "used_percent") with
         | some u => .num (some ((jsRound u : Int) : Rat))
         | none => .null_),
       ("resetLabel", formatResetLabelFromEpoch fmt (w.get "resets_at"))]
  .obj
    [("sourceFile", .str name),
     ("eventTimestamp", jsOr (j.get "timestamp") .null_),
     ("fiveHour", mkWindow (rl.get "primary")),
     ("weekly", mkWindow (rl.get "secondary"))]

/-- Claim-side well-formedness of a resolver result: both windows carry a
`status` field and `updatedAt` is present and non-null. -/
def effectiveQuotaWellFormed (r : JsVal) : Bool :=
  (r.get "fiveHour").hasField "status" && (r.get "weekly").hasField "status" &&
    r.hasField "updatedAt" && !jsLooseNull (r.get "updatedAt")

/-- Shape condition under which a snapshot input spreads into a well-formed
resolver result: falsy, or it carries `status` on both windows and a
non-null `updatedAt` (every output of the snapshot parser does). -/
def snapshotShapeOk (v : JsVal) : Bool :=
  !v.truthy ||
    ((v.get "fiveHour").hasField "status" && (v.get "weekly").hasField "status" &&
      v.hasField "updatedAt" && !jsLooseNull (v.get "updatedAt"))

/-- Shape condition on the log-heuristic quota input: falsy, or each window
is falsy or carries `status` (every output of `parseCodexQuota` does). -/
def codexQuotaShapeOk (v : JsVal) : Bool :=
  !v.truthy ||
    ((!(v.get "fiveHour").truthy || (v.get "fiveHour").hasField "status") &&
      (!(v.get "weekly").truthy || (v.get "weekly").hasField "status"))

/-! ## Concrete fixtures used by witnesses and counterexamples -/

/-- A sample reset-label formatter standing in for the host
`Intl.DateTimeFormat` rendering. -/
def fmtSample : Rat → String := fun q => "reset@" ++ ratToString q

/-- A sample `Date.parse`. -/
def dateParseSample : String → Option Int := fun s =>
  if s = "2026-02-01T00:00:00.000Z" then some 1769904000000 else none

/-- The specification's canonical-payload example: declared source,
`five_hour.remaining_percent = 55`, `weekly.remaining_percent = 70`. -/
def c1Payload : JsVal :=
  .obj
    [("source", .str "codex_status_snapshot"),
     ("five_hour", .obj
       [("status", .str "ok"), ("remaining_percent", .num (some 55)),
        ("used_percent", .num (some 45))]),
     ("weekly", .obj
       [("status", .str "ok"), ("remaining_percent", .num (some 70)),
        ("used_percent", .num (some 30))])]

/-- A parsed free-text snapshot with numeric data (no `source` field). -/
def c2Snapshot : JsVal :=
  parseCodexStatusSnapshotText fmtSample "2026-02-01T00:05:00.000Z"
    "Rate limits remaining\n5h 55% left\nWeekly 70%"

/-- A session rate-limit record as produced by the session reader. -/
def c2Session : JsVal :=
  .obj
    [("fiveHour", .obj
       [("remainingPercent", .num (some 40)), ("usagePercent", .num (some 60)),
        ("resetLabel", .null_)]),
     ("weekly", .obj
       [("remainingPercent", .null_), ("usagePercent", .null_), ("resetLabel", .null_)])]

/-- A structured-mode snapshot (still fresh) whose parser output declares
`source = snapshot_kv`. -/
def c3Snapshot : JsVal :=
  attachSnapshotMeta
    (parseCodexStatusSnapshotText fmtSample "2026-02-01T00:05:00.000Z" "5h_remaining_percent=55")
    "2026-02-01T00:04:50.000Z" 10

/-- Snapshot text with an unrecognized `key=value` line and a parseable
free-text five-hour line. -/
def c4Text : String := "foo=bar\n5-hour 55% left"

/-- Snapshot text declaring non-complementary remaining/used percentages. -/
def c5Text : String := "5h_remaining_percent=55\n5h_used_percent=99"

/-- A token-count session event with `used_percent` 30 on the primary
window. -/
def c5Event : JsVal :=
  .obj
    [("type", .str "event_msg"), ("timestamp", .str "2026-02-01T00:00:00.000Z"),
     ("payload", .obj
       [("type", .str "token_count"),
        ("rate_limits", .obj
          [("primary", .obj
             [("used_percent", .num (some 30)), ("resets_at", .num (some 1769907600))]),
           ("secondary", .obj
             [("used_percent", .num (some 12)), ("resets_at", .num (some 1770508800))])])])]

/-- A self-reported running status. -/
def c8Status : JsVal :=
  .obj
    [("status", .str "running"), ("timestamp", .str "2026-02-01T00:00:00.000Z"),
     ("current_loop", .num (some 3))]

/-- A snapshot object whose five-hour window carries a numeric
remaining-percent but no `status` field (and no `updatedAt`). -/
def c9Snapshot : JsVal :=
  .obj [("fiveHour", .obj [("remainingPercent", .num (some 5))])]

/-- A usable token-count event whose primary `resets_at` epoch (1e13 s)
lies beyond the JS `Date` range. -/
def c7ThrowEvent : JsVal :=
  .obj
    [("type", .str "event_msg"), ("timestamp", .str "2026-02-01T00:00:00.000Z"),
     ("payload", .obj
       [("type", .str "token_count"),
        ("rate_limits", .obj
          [("primary", .obj
             [("used_percent", .num (some 30)),
              ("resets_at", .num (some 10000000000000))])])])]

/-- One session file whose newest line is `c7ThrowEvent`. -/
def c7ThrowFiles : List (String × List (Option JsVal)) := [("f1", [some c7ThrowEvent])]

/-- A canonical payload whose five-hour window has a numeric
remaining-percent, no reset label, and a `resets_at_epoch` (1e13 s) beyond
the JS `Date` range. -/
def c9ThrowPayload : JsVal :=
  .obj
    [("five_hour", .obj
       [("remaining_percent", .num (some 5)),
        ("resets_at_epoch", .num (some 10000000000000))])]

/-! ## Helper lemmas about the value model -/

theorem goGet_setFields_ne (k k2 : String) (x : JsVal) (h : k ≠ k2) :
    ∀ fs : List (String × JsVal),
      JsVal.get.goGet (setFields fs k2 x) k = JsVal.get.goGet fs k := by
  intro fs
  induction fs with
  | nil => simp [setFields, JsVal.get.goGet, Ne.symm h]
  | cons p rest ih =>
    obtain ⟨pk, pv⟩ := p
    by_cases hp : pk = k2
    · subst hp
      simp [setFields, JsVal.get.goGet, Ne.symm h]
    · by_cases hk : pk = k <;> simp [setFields, JsVal.get.goGet, hp, hk, ih, h]

theorem get_setField_ne (v : JsVal) (k k2 : String) (x : JsVal) (h : k ≠ k2) :
    (v.setField k2 x).get k = v.get k := by
  cases v with
  | obj fs => simp [JsVal.setField, JsVal.get, goGet_setFields_ne k k2 x h]
  | undef => simp [JsVal.setField, JsVal.get, JsVal.get.goGet, Ne.symm h]
  | null_ => simp [JsVal.setField, JsVal.get, JsVal.get.goGet, Ne.symm h]
  | bool b => simp [JsVal.setField, JsVal.get, JsVal.get.goGet, Ne.symm h]
  | num q => simp [JsVal.setField, JsVal.get, JsVal.get.goGet, Ne.symm h]
  | str s => simp [JsVal.setField, JsVal.get, JsVal.get.goGet, Ne.symm h]

theorem goGet_setFields_eq (k : String) (x : JsVal) :
    ∀ fs : List (String × JsVal), JsVal.get.goGet (setFields fs k x) k = x := by
  intro fs
  induction fs with
  | nil => simp [setFields, JsVal.get.goGet]
  | cons p rest ih =>
    obtain ⟨pk, pv⟩ := p
    by_cases hp : pk = k
    · subst hp
      simp [setFields, JsVal.get.goGet]
    · simp [setFields, JsVal.get.goGet, hp, ih]

theorem get_setField_eq (v : JsVal) (k : String) (x : JsVal) :
    (v.setField k x).get k = x := by
  cases v with
  | obj fs => simp [JsVal.setField, JsVal.get, goGet_setFields_eq]
  | undef => simp [JsVal.setField, JsVal.get, JsVal.get.goGet]
  | null_ => simp [JsVal.setField, JsVal.get, JsVal.get.goGet]
  | bool b => simp [JsVal.setField, JsVal.get, JsVal.get.goGet]
  | num q => simp [JsVal.setField, JsVal.get, JsVal.get.goGet]
  | str s => simp [JsVal.setField, JsVal.get, JsVal.get.goGet]

theorem any_setFields_ne (k k2 : String) (x : JsVal) (h : k ≠ k2) :
    ∀ fs : List (String × JsVal),
      ((setFields fs k2 x).any (fun p => p.1 = k)) = (fs.any (fun p => p.1 = k)) := by
  intro fs
  induction fs with
  | nil => simp [setFields, Ne.symm h]
  | cons p rest ih =>
    obtain ⟨pk, pv⟩ := p
    by_cases hp : pk = k2
    · subst hp
      simp [setFields, Ne.symm h]
    · simp [setFields, hp, ih]

theorem hasField_setField_ne (v : JsVal) (k k2 : String) (x : JsVal) (h : k ≠ k2) :
    (v.setField k2 x).hasField k = v.hasField k := by
  cases v with
  | obj fs => simp [JsVal.setField, JsVal.hasField, any_setFields_ne k k2 x h]
  | undef => simp [JsVal.setField, JsVal.hasField, Ne.symm h]
  | null_ => simp [JsVal.setField, JsVal.hasField, Ne.symm h]
  | bool b => simp [JsVal.setField, JsVal.hasField, Ne.symm h]
  | num q => simp [JsVal.setField, JsVal.hasField, Ne.symm h]
  | str s => simp [JsVal.setField, JsVal.hasField, Ne.symm h]

theorem snapshotHasNumbers_isObj (v : JsVal) (h : snapshotHasNumbers v = true) :
    ∃ fs, v = .obj fs := by
  cases v with
  | obj fs => exact ⟨fs, rfl⟩
  | undef => simp [snapshotHasNumbers, JsVal.truthy] at h
  | null_ => simp [snapshotHasNumbers, JsVal.truthy] at h
  | bool b => simp [snapshotHasNumbers, JsVal.get, JsVal.isNumber] at h
  | num q => simp [snapshotHasNumbers, JsVal.get, JsVal.isNumber] at h
  | str s => simp [snapshotHasNumbers, JsVal.get, JsVal.isNumber] at h

/-! ## C1: canonical payload precedence -/

/-- C1: whenever the caller-supplied canonical payload carries a numeric
remaining-percent on at least one window, `buildEffectiveQuota` returns
exactly the payload's remaining-percent values (camelCase over snake_case,
else null) with `source` equal to the payload's declared source
(`status_json` when none is declared), regardless of the snapshot, session
and log-heuristic inputs. -/
theorem buildEffectiveQuota_canonical_payload_precedence
    (fmt : Rat → String) (now : String) (snap cq sess q : JsVal)
    (h : canonicalPayloadNumeric q = true) :
    ((buildEffectiveQuota fmt now snap cq sess q).get "fiveHour").get "remainingPercent" =
        payloadRemaining (payloadFive q) ∧
      ((buildEffectiveQuota fmt now snap cq sess q).get "weekly").get "remainingPercent" =
        payloadRemaining (payloadWeekly q) ∧
      (buildEffectiveQuota fmt now snap cq sess q).get "source" =
        jsOr (q.get "source") (.str "status_json") := by
  cases q with
  | obj fs =>
    simp only [canonicalPayloadNumeric] at h
    have hq : normalizeStatusQuota fmt now (.obj fs) =
        some (.obj
          [("fiveHour", normalizeStatusWindow fmt (payloadFive (.obj fs))),
           ("weekly", normalizeStatusWindow fmt (payloadWeekly (.obj fs))),
           ("updatedAt", .str now),
           ("source", jsOr ((JsVal.obj fs).get "source") (.str "status_json"))]) := by
      simp only [normalizeStatusQuota, payloadFive, payloadWeekly, h, if_true]
    simp only [buildEffectiveQuota, hq]
    refine ⟨?_, ?_, ?_⟩ <;>
      simp [JsVal.get, JsVal.get.goGet, normalizeStatusWindow, payloadRemaining]
  | undef => simp [canonicalPayloadNumeric] at h
  | null_ => simp [canonicalPayloadNumeric] at h
  | bool b => simp [canonicalPayloadNumeric] at h
  | num n => simp [canonicalPayloadNumeric] at h
  | str s => simp [canonicalPayloadNumeric] at h

/-- C1 witness at the specification's 55 / 70 example payload. -/
theorem buildEffectiveQuota_canonical_payload_precedence_witness :
    canonicalPayloadNumeric c1Payload = true ∧
      ((buildEffectiveQuota fmtSample "2026-02-01T00:00:00.000Z" .null_ .null_ .null_
            c1Payload).get "fiveHour").get "remainingPercent" = .num (some 55) ∧
      ((buildEffectiveQuota fmtSample "2026-02-01T00:00:00.000Z" .null_ .null_ .null_
            c1Payload).get "weekly").get "remainingPercent" = .num (some 70) ∧
      (buildEffectiveQuota fmtSample "2026-02-01T00:00:00.000Z" .null_ .null_ .null_
          c1Payload).get "source" = .str "codex_status_snapshot" := by
  have h : canonicalPayloadNumeric c1Payload = true := rfl
  have m := buildEffectiveQuota_canonical_payload_precedence fmtSample
    "2026-02-01T00:00:00.000Z" .null_ .null_ .null_ c1Payload h
  exact ⟨h, m.1.trans rfl, m.2.1.trans rfl, m.2.2.trans rfl⟩

/-! ## C2: snapshot staleness boundary -/

/-- C2 counterexample: a snapshot captured 301 seconds ago is *not* marked
stale (the code's threshold is `QUOTA_SNAPSHOT_STALE_SECONDS = 15 * 60 =
900`), and resolver step 2 returns it (source `snapshot`) even though
session rate-limits are also supplied. -/
theorem snapshot_301s_not_stale_counterexample :
    (attachSnapshotMeta c2Snapshot "2026-02-01T00:00:00.000Z" 301).get "isStale" =
        .bool false ∧
      (buildEffectiveQuota fmtSample "2026-02-01T00:05:01.000Z"
          (attachSnapshotMeta c2Snapshot "2026-02-01T00:00:00.000Z" 301)
          .null_ c2Session .null_).get "source" = .str "snapshot" ∧
      ((buildEffectiveQuota fmtSample "2026-02-01T00:05:01.000Z"
          (attachSnapshotMeta c2Snapshot "2026-02-01T00:00:00.000Z" 301)
          .null_ c2Session .null_).get "fiveHour").get "remainingPercent" =
        .num (some 55) :=
  ⟨rfl, rfl, rfl⟩

/-- C2 amended: the staleness threshold is 900 s; a snapshot older than
that is marked stale and skipped by resolver step 2, so supplied session
rate-limits win (source `codex_sessions`, session percentages). -/
theorem snapshot_stale_beyond_900s
    (age : Nat) (h : QUOTA_SNAPSHOT_STALE_SECONDS < age) :
    (attachSnapshotMeta c2Snapshot "2026-02-01T00:00:00.000Z" age).get "isStale" =
        .bool true ∧
      (buildEffectiveQuota fmtSample "2026-02-01T00:20:00.000Z"
          (attachSnapshotMeta c2Snapshot "2026-02-01T00:00:00.000Z" age)
          .null_ c2Session .null_).get "source" = .str "codex_sessions" ∧
      ((buildEffectiveQuota fmtSample "2026-02-01T00:20:00.000Z"
          (attachSnapshotMeta c2Snapshot "2026-02-01T00:00:00.000Z" age)
          .null_ c2Session .null_).get "fiveHour").get "remainingPercent" =
        .num (some 40) := by
  have htr : ((attachSnapshotMeta c2Snapshot "2026-02-01T00:00:00.000Z" age).get
      "isStale").truthy = true := by
    simp only [attachSnapshotMeta, get_setField_eq, JsVal.truthy]
    exact decide_eq_true h
  have hcond :
      (snapshotHasNumbers (attachSnapshotMeta c2Snapshot "2026-02-01T00:00:00.000Z" age) &&
        !((attachSnapshotMeta c2Snapshot "2026-02-01T00:00:00.000Z" age).get
            "isStale").truthy) = false := by
    simp [htr]
  refine ⟨?_, ?_, ?_⟩
  · simp only [attachSnapshotMeta, get_setField_eq]
    exact congrArg JsVal.bool (decide_eq_true h)
  · simp only [buildEffectiveQuota, normalizeStatusQuota, hcond]
    rfl
  · simp only [buildEffectiveQuota, normalizeStatusQuota, hcond]
    rfl

/-- C2 amended witness at age 901 s. -/
theorem snapshot_stale_beyond_900s_witness :
    QUOTA_SNAPSHOT_STALE_SECONDS < 901 ∧
      (attachSnapshotMeta c2Snapshot "2026-02-01T00:00:00.000Z" 901).get "isStale" =
        .bool true ∧
      (buildEffectiveQuota fmtSample "2026-02-01T00:20:00.000Z"
          (attachSnapshotMeta c2Snapshot "2026-02-01T00:00:00.000Z" 901)
          .null_ c2Session .null_).get "source" = .str "codex_sessions" := by
  have h : QUOTA_SNAPSHOT_STALE_SECONDS < 901 := by decide
  have m := snapshot_stale_beyond_900s 901 h
  exact ⟨h, m.1, m.2.1⟩

/-! ## C3: snapshot branch provenance -/

/-- C3 counterexample: a fresh structured-mode snapshot (whose parser
output declares `source = snapshot_kv`) reaches resolver step 2, but the
result's `source` is `snapshot_kv`, not `snapshot`. -/
theorem snapshot_kv_source_counterexample :
    snapshotHasNumbers c3Snapshot = true ∧
      (c3Snapshot.get "isStale").truthy = false ∧
      (buildEffectiveQuota fmtSample "2026-02-01T00:05:10.000Z" c3Snapshot
          .null_ .null_ .null_).get "source" = .str "snapshot_kv" ∧
      ("snapshot_kv" : String) ≠ "snapshot" :=
  ⟨rfl, rfl, rfl, by decide⟩

/-- C3 amended: when no canonical payload applies and the snapshot has
numeric data, the resolver returns the snapshot unchanged except for
`source`, which becomes the snapshot's own declared source when it has a
truthy one, and only otherwise `snapshot` (fresh) or `snapshot_stale`
(stale, with no session rate-limits available). -/
theorem buildEffectiveQuota_snapshot_source
    (fmt : Rat → String) (now : String) (snap cq sess sq : JsVal)
    (hq : normalizeStatusQuota fmt now sq = none)
    (hn : snapshotHasNumbers snap = true) :
    ((snap.get "isStale").truthy = false →
        (buildEffectiveQuota fmt now snap cq sess sq).get "source" =
            jsOr (snap.get "source") (.str "snapshot") ∧
          ∀ k, k ≠ "source" →
            (buildEffectiveQuota fmt now snap cq sess sq).get k = snap.get k) ∧
      ((snap.get "isStale").truthy = true → sess.truthy = false →
        (buildEffectiveQuota fmt now snap cq sess sq).get "source" =
            jsOr (snap.get "source") (.str "snapshot_stale") ∧
          ∀ k, k ≠ "source" →
            (buildEffectiveQuota fmt now snap cq sess sq).get k = snap.get k) := by
  constructor
  · intro hst
    simp only [buildEffectiveQuota, hq, hn, hst]
    constructor
    · simp [get_setField_eq]
    · intro k hk
      simp [get_setField_ne snap k "source" _ hk]
  · intro hst hsess
    simp only [buildEffectiveQuota, hq, hn, hst, hsess]
    constructor
    · simp [get_setField_eq]
    · intro k hk
      simp [get_setField_ne snap k "source" _ hk]

/-- C3 amended witness: the fresh structured snapshot keeps its declared
`snapshot_kv` source and its windows pass through unchanged. -/
theorem buildEffectiveQuota_snapshot_source_witness :
    snapshotHasNumbers c3Snapshot = true ∧
      (c3Snapshot.get "isStale").truthy = false ∧
      (buildEffectiveQuota fmtSample "2026-02-01T00:05:10.000Z" c3Snapshot
          .null_ .null_ .null_).get "source" = .str "snapshot_kv" ∧
      (buildEffectiveQuota fmtSample "2026-02-01T00:05:10.000Z" c3Snapshot
          .null_ .null_ .null_).get "fiveHour" = c3Snapshot.get "fiveHour" := by
  have m := (buildEffectiveQuota_snapshot_source fmtSample "2026-02-01T00:05:10.000Z"
    c3Snapshot .null_ .null_ .null_ rfl rfl).1 rfl
  exact ⟨rfl, rfl, m.1.trans rfl, m.2 "fiveHour" (by decide)⟩

/-! ## C4: structured-branch selection -/

theorem kvInsert_ne_nil (m : List (String × String)) (k v : String) :
    kvInsert m k v ≠ [] := by
  unfold kvInsert
  by_cases ha : m.any (fun p => p.1 = k)
  · simp only [ha, if_true]
    intro hm
    rw [List.map_eq_nil_iff] at hm
    subst hm
    simp at ha
  · simp [ha]

theorem collectKv_go_ne_nil :
    ∀ (ls : List (List Char)) (m : List (String × String)), m ≠ [] →
      ls.foldl
          (fun m l =>
            match kvLineMatch l with
            | some (k, v) => kvInsert m k v
            | none => m)
          m ≠ [] := by
  intro ls
  induction ls with
  | nil => intro m hm; simpa using hm
  | cons l rest ih =>
    intro m hm
    simp only [List.foldl_cons]
    match hkv : kvLineMatch l with
    | some (k, v) => exact ih _ (kvInsert_ne_nil m k v)
    | none => exact ih m hm

theorem collectKv_go_nil_iff :
    ∀ ls : List (List Char),
      (ls.foldl
          (fun m l =>
            match kvLineMatch l with
            | some (k, v) => kvInsert m k v
            | none => m)
          [] = []) ↔ ∀ l ∈ ls, kvLineMatch l = none := by
  intro ls
  induction ls with
  | nil => simp
  | cons l rest ih =>
    simp only [List.foldl_cons, List.mem_cons]
    match hkv : kvLineMatch l with
    | some (k, v) =>
      constructor
      · intro hfold
        exact absurd hfold (collectKv_go_ne_nil rest _ (kvInsert_ne_nil [] k v))
      · intro hall
        exact absurd (hall l (Or.inl rfl)) (by simp [hkv])
    | none =>
      constructor
      · intro hfold x hx
        rcases hx with hx | hx
        · subst hx; exact hkv
        · exact (ih.mp hfold) x hx
      · intro hall
        exact ih.mpr fun x hx => hall x (Or.inr hx)

theorem collectKv_isEmpty_eq_not_hasKvLine (textL : List Char) :
    (collectKv textL).isEmpty = !hasKvLine textL := by
  unfold collectKv hasKvLine
  by_cases hA : ((splitOnNl textL).map normalizeLineList).any isKvLine
  · rw [hA]
    simp only [List.any_eq_true] at hA
    obtain ⟨l, hl, hkv⟩ := hA
    have hne : ¬(((splitOnNl textL).map normalizeLineList).foldl
        (fun m l =>
          match kvLineMatch l with
          | some (k, v) => kvInsert m k v
          | none => m)
        [] = []) := by
      intro hnil
      have := (collectKv_go_nil_iff _).mp hnil l hl
      simp [isKvLine, this] at hkv
    simpa [List.isEmpty_iff] using hne
  · rw [Bool.not_eq_true] at hA
    rw [hA]
    have hall : ∀ l ∈ (splitOnNl textL).map normalizeLineList, kvLineMatch l = none := by
      intro l hl
      by_cases hkv : kvLineMatch l = none
      · exact hkv
      · exfalso
        have : ((splitOnNl textL).map normalizeLineList).any isKvLine = true := by
          rw [List.any_eq_true]
          refine ⟨l, hl, ?_⟩
          simp only [isKvLine, Option.isSome]
          match hx : kvLineMatch l with
          | some _ => rfl
          | none => exact absurd hx hkv
        rw [this] at hA; cases hA
    simp [List.isEmpty_iff, (collectKv_go_nil_iff _).mpr hall]

/-- C4 counterexample: on `"foo=bar\n5-hour 55% left"`, whose only
`key=value` line uses an unrecognized key, the code still takes the
structured branch (five-hour remaining is null), while the parser the
specification describes falls back to free text (remaining 55); the two
disagree. -/
theorem snapshot_unrecognized_kv_counterexample :
    ((parseCodexStatusSnapshotText fmtSample "2026-02-01T00:00:00.000Z" c4Text).get
          "fiveHour").get "remainingPercent" = .null_ ∧
      ((snapshotParserPerSpec fmtSample "2026-02-01T00:00:00.000Z" c4Text).get
          "fiveHour").get "remainingPercent" = .num (some 55) ∧
      parseCodexStatusSnapshotText fmtSample "2026-02-01T00:00:00.000Z" c4Text ≠
        snapshotParserPerSpec fmtSample "2026-02-01T00:00:00.000Z" c4Text := by
  refine ⟨rfl, rfl, fun hEq => ?_⟩
  have h3 : JsVal.null_ = JsVal.num (some 55) := by
    have h2 : ((parseCodexStatusSnapshotText fmtSample "2026-02-01T00:00:00.000Z"
          c4Text).get "fiveHour").get "remainingPercent" =
        ((snapshotParserPerSpec fmtSample "2026-02-01T00:00:00.000Z" c4Text).get
          "fiveHour").get "remainingPercent" :=
      congrArg (fun v => (v.get "fiveHour").get "remainingPercent") hEq
    exact (show ((parseCodexStatusSnapshotText fmtSample "2026-02-01T00:00:00.000Z"
        c4Text).get "fiveHour").get "remainingPercent" = JsVal.null_ from rfl).symm.trans
      (h2.trans rfl)
  exact JsVal.noConfusion h3

/-- C4 amended: the snapshot parser takes the structured branch exactly
when at least one normalized line matches the `key=value` shape (with
*any* word-character key, recognized or not); otherwise it falls back to
free-text scanning, and the two branches are never blended. -/
theorem parseSnapshot_branch_iff_kv_line (fmt : Rat → String) (now : String)
    (rawText : String) :
    parseCodexStatusSnapshotText fmt now rawText =
      (if (trimList rawText.data).isEmpty then .null_
       else if hasKvLine (trimList rawText.data) then
         snapshotStructuredResult fmt now (trimList rawText.data)
           (collectKv (trimList rawText.data))
       else snapshotFreeTextResult fmt now (trimList rawText.data)) := by
  simp only [parseCodexStatusSnapshotText]
  by_cases he : (trimList rawText.data).isEmpty
  · simp [he]
  · simp only [he, if_false, Bool.false_eq_true]
    by_cases hk : hasKvLine (trimList rawText.data)
    · simp [collectKv_isEmpty_eq_not_hasKvLine, hk]
    · simp [collectKv_isEmpty_eq_not_hasKvLine, hk]

/-! ## C5: the remaining + usage = 100 invariant -/

theorem ratFloor_eq_intFloor (q : Rat) : Rat.floor q = ⌊q⌋ :=
  (Rat.floor_def' q).trans Rat.floor_def.symm

theorem jsRound_intCast (z : Int) : jsRound ((z : Int) : Rat) = z := by
  rw [jsRound, ratFloor_eq_intFloor, Int.floor_int_add]
  norm_num

theorem optNum_eq_num (p : Option Rat) (r : Rat) (h : optNum p = .num (some r)) :
    p = some r := by
  cases p with
  | none => exact JsVal.noConfusion h
  | some q =>
    simp only [optNum] at h
    simpa using h

theorem limitLinePercents_sum (nl : List Char) (r u : Rat)
    (h1 : (limitLinePercents nl).1 = some r) (h2 : (limitLinePercents nl).2 = some u) :
    r + u = 100 := by
  rcases hL : findPercent "left".data nl with _ | n
  · rcases hU : findPercent "used".data nl with _ | n
    · rcases hG : findPercent ([] : List Char) nl with _ | n
      · simp [limitLinePercents, hL, hU, hG] at h1
      · simp only [limitLinePercents, hL, hU, hG] at h1 h2
        simp at h1 h2
        rw [← h1, ← h2]; ring
    · simp only [limitLinePercents, hL, hU] at h1 h2
      simp at h1 h2
      rw [← h1, ← h2]; ring
  · simp only [limitLinePercents, hL] at h1 h2
    simp at h1 h2
    rw [← h1, ← h2]; ring

/-- C5 counterexample: the structured snapshot parser copies declared
remaining and used percent independently, so `5h_remaining_percent=55`
with `5h_used_percent=99` yields a window violating the invariant. -/
theorem quota_window_sum_counterexample :
    ((parseCodexStatusSnapshotText fmtSample "2026-02-01T00:00:00.000Z" c5Text).get
          "fiveHour").get "remainingPercent" = .num (some 55) ∧
      ((parseCodexStatusSnapshotText fmtSample "2026-02-01T00:00:00.000Z" c5Text).get
          "fiveHour").get "usagePercent" = .num (some 99) ∧
      (55 : Rat) + 99 ≠ 100 :=
  ⟨by with_unfolding_all rfl, by with_unfolding_all rfl, by norm_num⟩

/-- C5 amended: the invariant `remainingPercent + usagePercent = 100`
holds unconditionally for every window the quota-line parser produces; the
structured snapshot parser, the session reader and the resolver's
canonical-payload branch copy or round the two percentages independently
from their inputs, so for them it holds only for complementary inputs —
for the session reader, whenever `used_percent` is an integer within
[0, 100]. -/
theorem quota_window_sum_amended :
    (∀ (fmt : Rat → String) (line : String) (r u : Rat),
        (parseLimitLine fmt line).get "remainingPercent" = .num (some r) →
        (parseLimitLine fmt line).get "usagePercent" = .num (some u) →
        r + u = 100) ∧
      (∀ (fmt : Rat → String) (name : String) (j : JsVal) (n : Nat), n ≤ 100 →
        (((j.get "payload").get "rate_limits").get "primary").get "used_percent" =
          .num (some ((n : Nat) : Rat)) →
        ∃ r u : Rat,
          ((rateLimitsRecord fmt name j).get "fiveHour").get "remainingPercent" =
              .num (some r) ∧
            ((rateLimitsRecord fmt name j).get "fiveHour").get "usagePercent" =
              .num (some u) ∧
            r + u = 100) := by
  constructor
  · intro fmt line r u h1 h2
    unfold parseLimitLine at h1 h2
    by_cases he : (normalizeLineList line.data).isEmpty
    · rw [if_pos he] at h1
      exact absurd h1 (by simp [JsVal.get])
    · rw [if_neg he] at h1 h2
      simp only [JsVal.get, JsVal.get.goGet] at h1 h2
      norm_num at h1 h2
      exact limitLinePercents_sum _ r u (optNum_eq_num _ r h1) (optNum_eq_num _ u h2)
  · intro fmt name j n hn hused
    unfold rateLimitsRecord
    simp only [hused, jsToNumber]
    refine ⟨((clampInt0100 (jsRound (100 - (n : Rat))) : Int) : Rat),
      ((jsRound ((n : Nat) : Rat) : Int) : Rat), ?_, ?_, ?_⟩
    · simp [JsVal.get, JsVal.get.goGet]
    · simp [JsVal.get, JsVal.get.goGet]
    · have e1 : (100 : Rat) - (n : Rat) = (((100 - (n : Int)) : Int) : Rat) := by
        push_cast; ring
      have e2 : jsRound ((n : Nat) : Rat) = (n : Int) := by
        rw [show ((n : Nat) : Rat) = (((n : Int) : Int) : Rat) by push_cast; ring]
        exact jsRound_intCast _
      rw [e1, jsRound_intCast, e2]
      have hcl : clampInt0100 (100 - (n : Int)) = 100 - (n : Int) := by
        unfold clampInt0100
        have h0 : (0 : Int) ≤ 100 - (n : Int) := by
          have : (n : Int) ≤ 100 := by exact_mod_cast hn
          omega
        have h100 : 100 - (n : Int) ≤ 100 := by omega
        omega
      rw [hcl]
      push_cast
      ring

/-- C5 amended witness: a `30% used` line sums to 100, and a session event
with integer `used_percent = 30` yields complementary 70/30. -/
theorem quota_window_sum_amended_witness :
    (parseLimitLine fmtSample "5h 30% used").get "remainingPercent" = .num (some 70) ∧
      (parseLimitLine fmtSample "5h 30% used").get "usagePercent" = .num (some 30) ∧
      (70 : Rat) + 30 = 100 ∧
      (∃ r u : Rat,
        ((rateLimitsRecord fmtSample "f1" c5Event).get "fiveHour").get "remainingPercent" =
            .num (some r) ∧
          ((rateLimitsRecord fmtSample "f1" c5Event).get "fiveHour").get "usagePercent" =
            .num (some u) ∧
          r + u = 100) := by
  refine ⟨by with_unfolding_all rfl, by with_unfolding_all rfl, ?_, ?_⟩
  · exact quota_window_sum_amended.1 fmtSample "5h 30% used" 70 30
      (by with_unfolding_all rfl) (by with_unfolding_all rfl)
  · exact quota_window_sum_amended.2 fmtSample "f1" c5Event 30 (by decide)
      (by with_unfolding_all rfl)

/-! ## C6: the `N% left` family -/

/-- C6: for every integer N in [0, 100], parsing the line `"N% left"`
yields `remainingPercent = N`, `usagePercent = 100 - N`, and
`status = limited` exactly when `N = 0` (else `ok`). -/
theorem parseLimitLine_percent_left (fmt : Rat → String) (N : Nat) (h : N ≤ 100) :
    (parseLimitLine fmt ⟨Nat.toDigits 10 N ++ "% left".data⟩).get "remainingPercent" =
        .num (some (N : Rat)) ∧
      (parseLimitLine fmt ⟨Nat.toDigits 10 N ++ "% left".data⟩).get "usagePercent" =
        .num (some (100 - (N : Rat))) ∧
      (parseLimitLine fmt ⟨Nat.toDigits 10 N ++ "% left".data⟩).get "status" =
        .str (if N = 0 then "limited" else "ok") := by
  have core : ∀ n : Nat, n ≤ 100 →
      (normalizeLineList (String.mk (Nat.toDigits 10 n ++ "% left".data)).data).isEmpty =
          false ∧
        (limitLinePercents
            (normalizeLineList (String.mk (Nat.toDigits 10 n ++ "% left".data)).data)).1 =
          some ((n : Nat) : Rat) ∧
        (limitLinePercents
            (normalizeLineList (String.mk (Nat.toDigits 10 n ++ "% left".data)).data)).2 =
          some (100 - ((n : Nat) : Rat)) ∧
        limitLineIsLimited
            (normalizeLineList (String.mk (Nat.toDigits 10 n ++ "% left".data)).data) =
          decide (n = 0) := by
    with_unfolding_all decide
  obtain ⟨hne, hp1, hp2, hlim⟩ := core N h
  refine ⟨?_, ?_, ?_⟩
  · simp [parseLimitLine, hne, JsVal.get, JsVal.get.goGet, hp1, optNum]
  · simp [parseLimitLine, hne, JsVal.get, JsVal.get.goGet, hp2, optNum]
  · simp only [parseLimitLine, hne, Bool.false_eq_true, if_false]
    simp [JsVal.get, JsVal.get.goGet, hlim]

/-- C6 witness at N = 55 and N = 0. -/
theorem parseLimitLine_percent_left_witness :
    (parseLimitLine fmtSample ⟨Nat.toDigits 10 55 ++ "% left".data⟩).get
        "remainingPercent" = .num (some 55) ∧
      (parseLimitLine fmtSample ⟨Nat.toDigits 10 0 ++ "% left".data⟩).get "status" =
        .str "limited" := by
  have m55 := parseLimitLine_percent_left fmtSample 55 (by decide)
  have m0 := parseLimitLine_percent_left fmtSample 0 (by decide)
  refine ⟨m55.1.trans (by norm_num), m0.2.2.trans (by norm_num)⟩

/-! ## C7: the session rate-limit reader -/

theorem jsRound_mono (a b : Rat) (hab : a ≤ b) : jsRound a ≤ jsRound b := by
  unfold jsRound
  rw [ratFloor_eq_intFloor, ratFloor_eq_intFloor]
  exact Int.floor_le_floor (by linarith)

theorem jsRound_zero : jsRound 0 = 0 := by
  unfold jsRound
  rw [ratFloor_eq_intFloor]
  norm_num

theorem jsRound_hundred : jsRound 100 = 100 := by
  unfold jsRound
  rw [ratFloor_eq_intFloor]
  norm_num

theorem clampInt_jsRound_comm (x : Rat) :
    clampInt0100 (jsRound x) = jsRound (clampRat0100 x) := by
  rcases le_total x 0 with hx | hx
  · have hcr : clampRat0100 x = 0 := by
      unfold clampRat0100
      rw [min_eq_right (by linarith), max_eq_left hx]
    have hb : jsRound x ≤ 0 := le_of_le_of_eq (jsRound_mono x 0 hx) jsRound_zero
    rw [hcr, jsRound_zero]
    unfold clampInt0100
    omega
  · rcases le_total x 100 with hx2 | hx2
    · have hcr : clampRat0100 x = x := by
        unfold clampRat0100
        rw [min_eq_right hx2, max_eq_right hx]
      have h1 : 0 ≤ jsRound x := jsRound_zero ▸ jsRound_mono 0 x hx
      have h2 : jsRound x ≤ 100 := le_of_le_of_eq (jsRound_mono x 100 hx2) jsRound_hundred
      rw [hcr]
      unfold clampInt0100
      omega
    · have hcr : clampRat0100 x = 100 := by
        unfold clampRat0100
        rw [min_eq_left hx2, max_eq_right (by norm_num : (0 : Rat) ≤ 100)]
      have hb : 100 ≤ jsRound x := jsRound_hundred ▸ jsRound_mono 100 x hx2
      rw [hcr, jsRound_hundred]
      unfold clampInt0100
      omega

theorem rateLimitsRecord_eq_spec (fmt : Rat → String) (name : String) (j : JsVal) :
    rateLimitsRecord fmt name j = specRateLimitsRecord fmt name j := by
  unfold rateLimitsRecord specRateLimitsRecord
  simp only [clampInt_jsRound_comm]

theorem scanSessionLines_eq_find (fmt : Rat → String) (name : String) :
    ∀ ls : List (Option JsVal),
      scanSessionLines fmt name ls =
        ((ls.filterMap id).find? usableTokenCountEvent).map (rateLimitsRecord fmt name) := by
  intro ls
  induction ls with
  | nil => rfl
  | cons o rest ih =>
    cases o with
    | none => simpa [scanSessionLines] using ih
    | some j =>
      simp only [scanSessionLines, List.filterMap_cons]
      cases hA : jsStrictEqStr (j.get "type") "event_msg" <;>
        cases hB : jsStrictEqStr ((j.get "payload").get "type") "token_count" <;>
          cases hC : ((j.get "payload").get "rate_limits").truthy <;>
            cases hP : (((j.get "payload").get "rate_limits").get "primary").truthy <;>
              cases hS : (((j.get "payload").get "rate_limits").get "secondary").truthy <;>
                simp [usableTokenCountEvent, hA, hB, hC, hP, hS, List.find?_cons, ih]

/-- C7 counterexample: the reader does *not* never raise.  On one session
file whose newest line is a usable token-count event with
`primary.resets_at = 1e13` (finite, positive, beyond the JS `Date` range
of 8.64e12 epoch-seconds), the scan selects the event and the record
construction calls `formatResetLabelFromEpoch(primary.resets_at)` —
outside the `JSON.parse` try/catch, the only `try` in the function — where
`Intl.DateTimeFormat.prototype.format` on the invalid `Date` raises
`RangeError: Invalid time value`. -/
theorem session_reader_range_error_counterexample :
    usableTokenCountEvent c7ThrowEvent = true ∧
      firstUsableEvent c7ThrowFiles = some ("f1", c7ThrowEvent) ∧
      formatResetLabelThrows
          ((((c7ThrowEvent.get "payload").get "rate_limits").get "primary").get
            "resets_at") = true ∧
      readLatestRateLimitsThrows c7ThrowFiles = true :=
  ⟨by with_unfolding_all rfl, by with_unfolding_all rfl, by with_unfolding_all rfl,
    by with_unfolding_all rfl⟩

theorem scanSessionLinesThrows_eq_find :
    ∀ ls : List (Option JsVal),
      scanSessionLinesThrows ls =
        ((ls.filterMap id).find? usableTokenCountEvent).map rateLimitsRecordThrows := by
  intro ls
  induction ls with
  | nil => rfl
  | cons o rest ih =>
    cases o with
    | none => simpa [scanSessionLinesThrows] using ih
    | some j =>
      simp only [scanSessionLinesThrows, List.filterMap_cons]
      cases hA : jsStrictEqStr (j.get "type") "event_msg" <;>
        cases hB : jsStrictEqStr ((j.get "payload").get "type") "token_count" <;>
          cases hC : ((j.get "payload").get "rate_limits").truthy <;>
            cases hP : (((j.get "payload").get "rate_limits").get "primary").truthy <;>
              cases hS : (((j.get "payload").get "rate_limits").get "secondary").truthy <;>
                simp [usableTokenCountEvent, hA, hB, hC, hP, hS, List.find?_cons, ih]

/-- C7 amended: over any modelled list of session files (each a
newest-last list of per-line `JSON.parse` outcomes), the reader's
completed evaluations return the conversion of the newest usable
token-count event — scanning files newest-first and lines newest-first,
silently skipping malformed lines and events without a usable
`rate_limits` payload — where the conversion maps `primary` to `fiveHour`
and `secondary` to `weekly` with
`remainingPercent = round(clamp(100 - used_percent, 0, 100))`, and `null`
when nothing usable exists; the evaluation raises (a `RangeError` out of
the reset-label formatter) exactly when the selected newest usable event
carries a finite `resets_at` epoch beyond the JS `Date` range on its
`primary` or `secondary` window, and otherwise never raises. -/
theorem readLatestRateLimits_value_and_raise (fmt : Rat → String) :
    ∀ files : List (String × List (Option JsVal)),
      readLatestRateLimitsFromCodexSessions fmt files =
          (match firstUsableEvent files with
           | none => .null_
           | some (name, j) => specRateLimitsRecord fmt name j) ∧
        readLatestRateLimitsThrows files =
          (match firstUsableEvent files with
           | none => false
           | some (_, j) => rateLimitsRecordThrows j) := by
  intro files
  constructor
  · induction files with
    | nil => rfl
    | cons f rest ih =>
      obtain ⟨name, lines⟩ := f
      simp only [readLatestRateLimitsFromCodexSessions, firstUsableEvent]
      rw [scanSessionLines_eq_find]
      cases hf : (lines.reverse.filterMap id).find? usableTokenCountEvent with
      | none => simpa using ih
      | some j => simp [rateLimitsRecord_eq_spec]
  · induction files with
    | nil => rfl
    | cons f rest ih =>
      obtain ⟨name, lines⟩ := f
      simp only [readLatestRateLimitsThrows, firstUsableEvent]
      rw [scanSessionLinesThrows_eq_find]
      cases hf : (lines.reverse.filterMap id).find? usableTokenCountEvent with
      | none => simpa using ih
      | some j => simp

/-! ## C8: orphan overlay and runtime health -/

/-- C8: with an active self-reported status, zero live processes and a
status age above 45 s, the handler overlays
`stopped_unexpected`/`process_missing`/`derived` onto a copy of the status
(all other fields unchanged — the embedding is pure, so the original
record is untouched) and reports `runtimeHealthy = false`; conversely with
a live process, age at most 30 s and a non-terminal status, no overlay is
applied and `runtimeHealthy = true`. -/
theorem projectStatusRuntime_orphan_and_fresh :
    (∀ (status : JsVal) (q : Rat),
        jsLooseNull status = false →
        activeStatuses.contains (statusNameOf status) = true →
        (RUNTIME_ORPHAN_THRESHOLD_SECONDS : Rat) < q →
        (projectStatusRuntime status 0 (.num (some q))).1.get "status" =
            .str "stopped_unexpected" ∧
          (projectStatusRuntime status 0 (.num (some q))).1.get "last_action" =
            .str "process_missing" ∧
          (projectStatusRuntime status 0 (.num (some q))).1.get "exit_reason" =
            .str "process_missing" ∧
          (projectStatusRuntime status 0 (.num (some q))).1.get "derived" = .bool true ∧
          (∀ k, k ≠ "status" → k ≠ "last_action" → k ≠ "exit_reason" → k ≠ "derived" →
            (projectStatusRuntime status 0 (.num (some q))).1.get k = status.get k) ∧
          (projectStatusRuntime status 0 (.num (some q))).2.get "runtimeHealthy" =
            .bool false) ∧
      (∀ (status : JsVal) (pc : Nat) (q : Rat),
        jsLooseNull status = false →
        0 < pc →
        q ≤ 30 →
        terminalStatuses.contains (statusNameOf status) = false →
        (projectStatusRuntime status pc (.num (some q))).1 = status ∧
          (projectStatusRuntime status pc (.num (some q))).2.get "runtimeHealthy" =
            .bool true) := by
  constructor
  · intro status q h1 h2 h3
    have horph : appearsOrphaned status 0 (.num (some q)) = true := by
      simp [appearsOrphaned, h1, h3]
      simpa using h2
    have hover : (projectStatusRuntime status 0 (.num (some q))).1 =
        overlayOrphan status := by
      simp [projectStatusRuntime, horph]
    refine ⟨?_, ?_, ?_, ?_, ?_, ?_⟩
    · rw [hover]
      unfold overlayOrphan
      rw [get_setField_ne _ _ _ _ (by decide), get_setField_ne _ _ _ _ (by decide),
        get_setField_ne _ _ _ _ (by decide), get_setField_eq]
    · rw [hover]
      unfold overlayOrphan
      rw [get_setField_ne _ _ _ _ (by decide), get_setField_ne _ _ _ _ (by decide),
        get_setField_eq]
    · rw [hover]
      unfold overlayOrphan
      rw [get_setField_ne _ _ _ _ (by decide), get_setField_eq]
    · rw [hover]
      unfold overlayOrphan
      rw [get_setField_eq]
    · intro k hk1 hk2 hk3 hk4
      rw [hover]
      unfold overlayOrphan
      rw [get_setField_ne _ _ _ _ hk4, get_setField_ne _ _ _ _ hk3,
        get_setField_ne _ _ _ _ hk2, get_setField_ne _ _ _ _ hk1]
    · simp [projectStatusRuntime, horph, JsVal.get, JsVal.get.goGet]
  · intro status pc q h1 h2 h3 h4
    have horph : appearsOrphaned status pc (.num (some q)) = false := by
      simp [appearsOrphaned, Nat.pos_iff_ne_zero.mp h2]
    constructor
    · simp [projectStatusRuntime, horph]
    · simp [projectStatusRuntime, horph, JsVal.get, JsVal.get.goGet, h1, h2, h3]
      simpa using h4

/-- C8 witness: the orphan scenario (running status, zero processes, 60 s
age) and the fresh scenario (one process, 5 s age). -/
theorem projectStatusRuntime_orphan_and_fresh_witness :
    (projectStatusRuntime c8Status 0 (.num (some 60))).1.get "status" =
        .str "stopped_unexpected" ∧
      (projectStatusRuntime c8Status 0 (.num (some 60))).2.get "runtimeHealthy" =
        .bool false ∧
      (projectStatusRuntime c8Status 1 (.num (some 5))).1 = c8Status ∧
      (projectStatusRuntime c8Status 1 (.num (some 5))).2.get "runtimeHealthy" =
        .bool true := by
  have m1 := projectStatusRuntime_orphan_and_fresh.1 c8Status 60 (by rfl) (by rfl)
    (by norm_num [RUNTIME_ORPHAN_THRESHOLD_SECONDS])
  have m2 := projectStatusRuntime_orphan_and_fresh.2 c8Status 1 5 (by rfl) (by norm_num)
    (by norm_num) (by rfl)
  exact ⟨m1.1, m1.2.2.2.2.2, m2.1, m2.2⟩

/-! ## C9: resolver totality and result shape -/

theorem truthy_not_loose_null (v : JsVal) (h : v.truthy = true) : jsLooseNull v = false := by
  cases v <;> simp_all [JsVal.truthy, jsLooseNull]

/-- C9 counterexample: `buildEffectiveQuota` is total, but on a snapshot
object whose five-hour window has a numeric remaining-percent and no
`status`/`updatedAt`/`weekly` fields, the spread of resolver step 2
propagates the missing fields: the result's five-hour window carries no
`status` and the result carries no `updatedAt`. -/
theorem buildEffectiveQuota_missing_fields_counterexample :
    ((buildEffectiveQuota fmtSample "2026-02-01T00:00:00.000Z" c9Snapshot
          .null_ .null_ .null_).get "fiveHour").hasField "status" = false ∧
      (buildEffectiveQuota fmtSample "2026-02-01T00:00:00.000Z" c9Snapshot
          .null_ .null_ .null_).hasField "updatedAt" = false ∧
      effectiveQuotaWellFormed (buildEffectiveQuota fmtSample "2026-02-01T00:00:00.000Z"
          c9Snapshot .null_ .null_ .null_) = false :=
  ⟨by with_unfolding_all rfl, by with_unfolding_all rfl, by with_unfolding_all rfl⟩

theorem normalizeStatusQuota_well_formed (fmt : Rat → String) (now : String)
    (sq r : JsVal) (h : normalizeStatusQuota fmt now sq = some r) :
    effectiveQuotaWellFormed r = true := by
  cases sq with
  | obj fs =>
    simp only [normalizeStatusQuota] at h
    split at h
    · injection h with h2
      subst h2
      simp [effectiveQuotaWellFormed, normalizeStatusWindow, JsVal.get, JsVal.get.goGet,
        JsVal.hasField, jsLooseNull]
    · exact Option.noConfusion h
  | undef => simp [normalizeStatusQuota] at h
  | null_ => simp [normalizeStatusQuota] at h
  | bool b => simp [normalizeStatusQuota] at h
  | num q => simp [normalizeStatusQuota] at h
  | str s => simp [normalizeStatusQuota] at h

theorem snapshot_spread_well_formed (snap x : JsVal) (hn : snapshotHasNumbers snap = true)
    (hs : snapshotShapeOk snap = true) :
    effectiveQuotaWellFormed (snap.setField "source" x) = true := by
  have htr : snap.truthy = true := by
    simp only [snapshotHasNumbers, Bool.and_eq_true] at hn
    exact hn.1
  simp only [snapshotShapeOk, htr, Bool.not_true, Bool.false_or, Bool.and_eq_true] at hs
  simp only [effectiveQuotaWellFormed,
    get_setField_ne snap "fiveHour" "source" x (by decide),
    get_setField_ne snap "weekly" "source" x (by decide),
    get_setField_ne snap "updatedAt" "source" x (by decide),
    hasField_setField_ne snap "updatedAt" "source" x (by decide), Bool.and_eq_true]
  exact ⟨⟨⟨hs.1.1.1, hs.1.1.2⟩, hs.1.2⟩, hs.2⟩

theorem heuristics_branch_well_formed (F W U : JsVal) (hf : F.hasField "status" = true)
    (hw : W.hasField "status" = true) (hu : jsLooseNull U = false) :
    effectiveQuotaWellFormed (.obj
      [("fiveHour", F), ("weekly", W), ("updatedAt", U),
       ("source", .str "heuristics_logs")]) = true := by
  have houter : (JsVal.obj
      [("fiveHour", F), ("weekly", W), ("updatedAt", U),
       ("source", .str "heuristics_logs")]).hasField "updatedAt" = true := rfl
  simp [effectiveQuotaWellFormed, JsVal.get, JsVal.get.goGet, hf, hw, hu, houter]

/-- C9 amended: the result of a completed `buildEffectiveQuota` evaluation
carries `status` on both windows and a present, non-null `updatedAt`
whenever the snapshot input is falsy or itself carries those fields (as
every snapshot-parser output does) and the log-heuristic input is falsy or
carries `status` on its truthy windows (as every `parseCodexQuota` output
does); a malformed object input propagates its missing fields into the
result; and the evaluation raises (a `RangeError` out of the reset-label
formatter, its only error path) exactly when the canonical payload has a
numeric remaining-percent and one of its windows lacks a truthy
`resetLabel`/`reset_label_local` while carrying a finite
`resets_at_epoch` beyond the JS `Date` range — on every other input
combination it never throws. -/
theorem buildEffectiveQuota_well_formed_and_raise (fmt : Rat → String) (now : String)
    (snap cq sess sq : JsVal)
    (hs : snapshotShapeOk snap = true) (hc : codexQuotaShapeOk cq = true) :
    effectiveQuotaWellFormed (buildEffectiveQuota fmt now snap cq sess sq) = true ∧
      buildEffectiveQuotaThrows snap cq sess sq =
        (canonicalPayloadNumeric sq &&
          (windowResetThrows (payloadFive sq) || windowResetThrows (payloadWeekly sq))) := by
  refine ⟨?_, by cases sq <;> rfl⟩
  rcases hns : normalizeStatusQuota fmt now sq with _ | r
  case some =>
    simp only [buildEffectiveQuota, hns]
    exact normalizeStatusQuota_well_formed fmt now sq r hns
  case none =>
    simp only [buildEffectiveQuota, hns]
    by_cases h2 : (snapshotHasNumbers snap && !(snap.get "isStale").truthy) = true
    · simp only [h2, if_true]
      have hn : snapshotHasNumbers snap = true := by
        rw [Bool.and_eq_true] at h2
        exact h2.1
      exact snapshot_spread_well_formed snap _ hn hs
    · rw [Bool.not_eq_true] at h2
      simp only [h2, Bool.false_eq_true, if_false]
      by_cases h3 : sess.truthy = true
      · simp only [h3, if_true]
        simp [effectiveQuotaWellFormed, sessionWindow, JsVal.get, JsVal.get.goGet,
          JsVal.hasField, jsLooseNull]
      · rw [Bool.not_eq_true] at h3
        simp only [h3, Bool.false_eq_true, if_false]
        by_cases h4 : snapshotHasNumbers snap = true
        · simp only [h4, if_true]
          exact snapshot_spread_well_formed snap _ h4 hs
        · rw [Bool.not_eq_true] at h4
          simp only [h4, Bool.false_eq_true, if_false]
          by_cases h5 : cq.truthy = true
          · simp only [h5, if_true]
            simp only [codexQuotaShapeOk, h5, Bool.not_true, Bool.false_or,
              Bool.and_eq_true] at hc
            have hf : (jsOr (cq.get "fiveHour")
                (.obj [("status", .str "unknown")])).hasField "status" = true := by
              by_cases h6 : (cq.get "fiveHour").truthy = true
              · have hcf := hc.1
                rw [h6] at hcf
                simp only [Bool.not_true, Bool.false_or] at hcf
                simpa [jsOr, h6] using hcf
              · rw [Bool.not_eq_true] at h6
                simp [jsOr, h6, JsVal.hasField]
            have hw : (jsOr (cq.get "weekly")
                (.obj [("status", .str "unknown")])).hasField "status" = true := by
              by_cases h7 : (cq.get "weekly").truthy = true
              · have hcw := hc.2
                rw [h7] at hcw
                simp only [Bool.not_true, Bool.false_or] at hcw
                simpa [jsOr, h7] using hcw
              · rw [Bool.not_eq_true] at h7
                simp [jsOr, h7, JsVal.hasField]
            have hu : jsLooseNull (jsOr (cq.get "updatedAt") (.str now)) = false := by
              by_cases h8 : (cq.get "updatedAt").truthy = true
              · simpa [jsOr, h8] using truthy_not_loose_null _ h8
              · rw [Bool.not_eq_true] at h8
                simp [jsOr, h8, jsLooseNull]
            exact heuristics_branch_well_formed _ _ _ hf hw hu
          · rw [Bool.not_eq_true] at h5
            simp only [h5, Bool.false_eq_true, if_false]
            simp [effectiveQuotaWellFormed, JsVal.get, JsVal.get.goGet, JsVal.hasField,
              jsLooseNull]

/-- C9 amended witness: well-shaped inputs (a parsed snapshot and null
quota inputs) yield a well-formed result, and the out-of-range
`resets_at_epoch` payload is a raising input. -/
theorem buildEffectiveQuota_well_formed_and_raise_witness :
    snapshotShapeOk c3Snapshot = true ∧
      codexQuotaShapeOk JsVal.null_ = true ∧
      effectiveQuotaWellFormed (buildEffectiveQuota fmtSample "2026-02-01T00:05:10.000Z"
          c3Snapshot .null_ .null_ .null_) = true ∧
      buildEffectiveQuotaThrows .null_ .null_ .null_ c9ThrowPayload = true := by
  have h1 : snapshotShapeOk c3Snapshot = true := by with_unfolding_all rfl
  have h2 : codexQuotaShapeOk JsVal.null_ = true := by rfl
  have h3 : snapshotShapeOk JsVal.null_ = true := by rfl
  refine ⟨h1, h2, (buildEffectiveQuota_well_formed_and_raise fmtSample
    "2026-02-01T00:05:10.000Z" c3Snapshot .null_ .null_ .null_ h1 h2).1, ?_⟩
  exact (buildEffectiveQuota_well_formed_and_raise fmtSample "2026-02-01T00:05:10.000Z"
    .null_ .null_ .null_ c9ThrowPayload h3 h2).2.trans (by with_unfolding_all rfl)

/-! ## C10: `getStatusAgeSeconds` -/

/-- C10: `getStatusAgeSeconds` (over any host `Date.parse` and clock)
returns null when the status record is absent or its timestamp field is
falsy or unparseable, and otherwise a non-negative integer number of
seconds, with a future timestamp yielding 0 rather than a negative age. -/
theorem getStatusAgeSeconds_null_or_nonneg (dateParse : String → Option Int)
    (nowMs : Int) (status : JsVal) :
    ((status.get "timestamp").truthy = false →
        getStatusAgeSeconds dateParse nowMs status = .null_) ∧
      ((status.get "timestamp").truthy = true →
        dateParse (jsToString (status.get "timestamp")) = none →
        getStatusAgeSeconds dateParse nowMs status = .null_) ∧
      (∀ p : Int, (status.get "timestamp").truthy = true →
        dateParse (jsToString (status.get "timestamp")) = some p →
        ∃ n : Int, 0 ≤ n ∧
          getStatusAgeSeconds dateParse nowMs status = .num (some ((n : Int) : Rat)) ∧
          (nowMs < p → n = 0)) := by
  refine ⟨?_, ?_, ?_⟩
  · intro h
    simp [getStatusAgeSeconds, h]
  · intro h1 h2
    simp [getStatusAgeSeconds, h1, h2]
  · intro p h1 h2
    refine ⟨max 0 ((nowMs - p).fdiv 1000), le_max_left 0 _, ?_, ?_⟩
    · simp [getStatusAgeSeconds, h1, h2]
    · intro hfut
      have hneg : nowMs - p < 0 := by omega
      have := Int.fdiv_neg' hneg (by norm_num : (0 : Int) < 1000)
      omega

/-- C10 witness: a parseable past timestamp gives a non-negative age, an
unparseable one gives null, and a missing one gives null. -/
theorem getStatusAgeSeconds_null_or_nonneg_witness :
    (∃ n : Int, 0 ≤ n ∧
        getStatusAgeSeconds dateParseSample 1769904005000 c8Status =
          .num (some ((n : Int) : Rat)) ∧
        ((1769904005000 : Int) < 1769904000000 → n = 0)) ∧
      getStatusAgeSeconds (fun _ => none) 1769904005000 c8Status = .null_ ∧
      getStatusAgeSeconds dateParseSample 1769904005000 .null_ = .null_ := by
  refine ⟨?_, ?_, ?_⟩
  · exact (getStatusAgeSeconds_null_or_nonneg dateParseSample 1769904005000 c8Status).2.2
      1769904000000 (by rfl) (by rfl)
  · exact (getStatusAgeSeconds_null_or_nonneg (fun _ => none) 1769904005000 c8Status).2.1
      (by rfl) rfl
  · exact (getStatusAgeSeconds_null_or_nonneg dateParseSample 1769904005000 .null_).1 rfl

end RalphUI
